import Mathlib

/-!
# Verification of the session-log parsing core (jsonl.ts / SessionSearcher.ts)

Shallow embedding of the normalizing parser, metrics aggregator, streaming
session analyzer and search matcher of the `claude-devtools` repository.

JavaScript runtime facilities that the code consumes (JSON decoding, `Date`
parsing, the current clock, SHA-256, the display sanitizer, markdown plain-text
rendering, the user-chunk type guard) are modelled as an explicit environment
record `JsEnv`; all definitions are parameterized by it.  Machine numbers are
modelled as `Int` (token counts and millisecond timestamps are integral in the
source's domain).  Fallible parsing returns `Option`/`Except`.
-/

set_option maxHeartbeats 1600000

namespace DevTools

/-- Generic decoded JSON value (the result of `JSON.parse`). -/
inductive Json where
  | null
  | bool (b : Bool)
  | num (n : Int)
  | str (s : String)
  | arr (elems : List Json)
  | obj (fields : List (String × Json))

/-- Property read on a decoded JSON value: `undefined` (i.e. `none`) on
non-objects and missing keys.  (For duplicate keys `JSON.parse` keeps the last
one; the embedding never constructs duplicate keys.) -/
def Json.getF : Json → String → Option Json
  | .obj fields, key => fields.lookup key
  | _, _ => none

/-- Property read through an optional value (`x?.k` chains). -/
def getF2 (o : Option Json) (key : String) : Option Json :=
  o.bind (fun j => j.getF key)

/-- JavaScript truthiness of a possibly-`undefined` value. -/
def jsTruthy : Option Json → Bool
  | none => false
  | some .null => false
  | some (.bool b) => b
  | some (.num n) => n != 0
  | some (.str s) => s != ""
  | some (.arr _) => true
  | some (.obj _) => true

/-- Embedding of `typeof v === 'string' ? v : undefined` (the source's `asString`). -/
def asString : Option Json → Option String
  | some (.str s) => some s
  | _ => none

/-- Embedding of `typeof v === 'boolean' ? v : undefined` (used for typed boolean fields). -/
def asBool : Option Json → Option Bool
  | some (.bool b) => some b
  | _ => none

/-- Embedding of `typeof v === 'number' ? v : undefined` (used for typed numeric fields). -/
def asNum : Option Json → Option Int
  | some (.num n) => some n
  | _ => none

/-- Nullish coalescing input: maps JSON `null` to `undefined` so that `??`
(`<|>` on `Option`) skips it. -/
def nullish : Option Json → Option Json
  | some .null => none
  | v => v

/-- Embedding of `v && typeof v === 'object'` (arrays included, `null` excluded). -/
def Json.isObjLike : Json → Bool
  | .obj _ => true
  | .arr _ => true
  | _ => false

/-- Embedding of `v === true` (strict equality against the boolean `true`). -/
def isTrueVal : Option Json → Bool
  | some (.bool true) => true
  | _ => false

/-- JavaScript `String(v)` coercion.  Primitive cases are exact; the composite
cases are fixed placeholder renderings (the source only coerces fields that are
strings in its typed domain). -/
def jsToString : Json → String
  | .null => "null"
  | .bool true => "true"
  | .bool false => "false"
  | .num n => toString n
  | .str s => s
  | .arr _ => "[array]"
  | .obj _ => "[object Object]"

/-- Embedding of `typeof (b.k) === 'string' && b.k === v`. -/
def isStrField (b : Json) (k v : String) : Bool :=
  asString (b.getF k) = some v

-- Character-list implementations of the JavaScript string operations the
-- source uses (structurally recursive, so that concrete runs reduce).

/-- JavaScript `s.trim()`. -/
def jsTrim (s : String) : String :=
  String.mk (((s.toList.dropWhile Char.isWhitespace).reverse.dropWhile Char.isWhitespace).reverse)

/-- JavaScript `s.toLowerCase()`. -/
def jsToLower (s : String) : String :=
  String.mk (s.toList.map Char.toLower)

/-- JavaScript `s.startsWith(pat)`. -/
def jsStartsWith (s pat : String) : Bool :=
  pat.toList.isPrefixOf s.toList

/-- JavaScript `s.endsWith(pat)`. -/
def jsEndsWith (s pat : String) : Bool :=
  pat.toList.isSuffixOf s.toList

/-- JavaScript `s.includes(c)` for a single character. -/
def jsContainsChar (s : String) (c : Char) : Bool :=
  s.toList.contains c

/-- JavaScript `s.substring(0, n)` / `s.slice(0, n)`. -/
def jsTake (s : String) (n : Nat) : String :=
  String.mk (s.toList.take n)

/-- JavaScript `s.split(sep)[0]` for a character separator. -/
def jsTakeUntil (s : String) (c : Char) : String :=
  String.mk (s.toList.takeWhile (· ≠ c))

-- =============================================================================
-- Data model (../types, re-traced from the fields the source reads and writes)
-- =============================================================================

/-- The recognized `type` values of the structured (Claude Code) format. -/
inductive MessageType where
  | user
  | assistant
  | system
  | summary
  | fileHistorySnapshot
  | queueOperation
deriving DecidableEq

/-- Token-usage snapshot: four independent counters, each possibly absent. -/
structure TokenUsage where
  input_tokens : Option Int
  output_tokens : Option Int
  cache_read_input_tokens : Option Int
  cache_creation_input_tokens : Option Int

/-- Message content: either plain text or an ordered sequence of content
blocks.  Blocks are kept as raw JSON objects, exactly as the source receives
them from `JSON.parse` (the TS code casts without validating). -/
inductive MessageContent where
  | str (s : String)
  | blocks (bs : List Json)

/-- The normalized message record (`ParsedMessage`).  A `timestamp` of `none`
models a JavaScript Invalid Date (`NaN` epoch). -/
structure ParsedMessage where
  uuid : String
  parentUuid : Option String
  type : MessageType
  timestamp : Option Int
  role : Option String
  content : MessageContent
  usage : Option TokenUsage
  model : Option String
  cwd : Option String
  gitBranch : Option String
  agentId : Option String
  isSidechain : Bool
  isMeta : Bool
  userType : Option String
  isCompactSummary : Bool
  toolCalls : List Json
  toolResults : List Json
  sourceToolUseID : Option String
  sourceToolAssistantUUID : Option String
  toolUseResult : Option Json

/-- Derived session metrics (`SessionMetrics`). -/
structure SessionMetrics where
  durationMs : Int
  totalTokens : Int
  inputTokens : Int
  outputTokens : Int
  cacheReadTokens : Int
  cacheCreationTokens : Int
  messageCount : Nat
  costUsd : Option Int
deriving DecidableEq

/-- Per-phase entry of the context-consumption breakdown
(`PhaseTokenBreakdown`). -/
structure PhaseTokenBreakdown where
  phaseNumber : Nat
  contribution : Int
  peakTokens : Int
  postCompaction : Option Int
deriving DecidableEq

-- =============================================================================
-- External runtime environment
-- =============================================================================

/-- The JavaScript runtime facilities and external collaborators the source
consumes, made explicit.  `parseDate s = none` models an Invalid Date;
`jsonParse s = none` models `JSON.parse` throwing a syntax error; `now`/`nowIso`
are the current clock (`Date.now()` / `new Date().toISOString()`); `isoOf`
renders an epoch timestamp via `Date#toISOString`; `sha256hex` is the hex digest
of `crypto.createHash('sha256')`; `sanitize` is the display sanitizer
(`sanitizeDisplayContent`), `isCommandOutput` is `isCommandOutputContent`,
`isUserChunkMsg` is `isParsedUserChunkMessage`, and `mdPlain` is
`extractMarkdownPlainText`. -/
structure JsEnv where
  jsonParse : String → Option Json
  parseDate : String → Option Int
  now : Int
  nowIso : String
  isoOf : Int → String
  sha256hex : String → String
  sanitize : String → String
  isCommandOutput : String → Bool
  isUserChunkMsg : ParsedMessage → Bool
  mdPlain : String → String

-- =============================================================================
-- Modelled external helpers (repository code outside src/)
-- =============================================================================

/-- Modelled from the spec: the conversational kinds are user/assistant/system
("non-conversational kinds (summary, file-history-snapshot, queue-operation)
carry no usage"); `isConversationalEntry` recognizes exactly these. -/
def isConversationalType : MessageType → Bool
  | .user => true
  | .assistant => true
  | .system => true
  | _ => false

/-- Modelled from the spec / types module: `isTextContent` is the type guard
for content blocks with `type === 'text'`. -/
def isTextBlock (b : Json) : Bool :=
  isStrField b "type" "text"

/-- Modelled from the spec ("Tool-call/result extraction (consumed): given
message content, returns the ordered tool invocations it contains"):
`extractToolCalls` from the external `toolExtraction` module. -/
def extractToolCalls : MessageContent → List Json
  | .str _ => []
  | .blocks bs => bs.filter (fun b => isStrField b "type" "tool_use")

/-- Modelled from the spec ("… and tool results it contains"):
`extractToolResults` from the external `toolExtraction` module. -/
def extractToolResults : MessageContent → List Json
  | .str _ => []
  | .blocks bs => bs.filter (fun b => isStrField b "type" "tool_result")

/-- Modelled from the spec (`computeMetrics([])` yields all-zero metrics with
duration 0 and no cost): the `EMPTY_METRICS` constant from the types module. -/
def EMPTY_METRICS : SessionMetrics :=
  { durationMs := 0
    totalTokens := 0
    inputTokens := 0
    outputTokens := 0
    cacheReadTokens := 0
    cacheCreationTokens := 0
    messageCount := 0
    costUsd := none }

-- =============================================================================
-- jsonl.ts: small helpers
-- =============================================================================

/-- Copilot role values (`'user' | 'assistant' | 'system'`). -/
inductive CopilotRole where
  | user
  | assistant
  | system
deriving DecidableEq

def CopilotRole.str : CopilotRole → String
  | .user => "user"
  | .assistant => "assistant"
  | .system => "system"

def CopilotRole.toMessageType : CopilotRole → MessageType
  | .user => .user
  | .assistant => .assistant
  | .system => .system

/-- Embedding of `stableUuid`: sha-256 hex digest of the seed, truncated to 24 chars. -/
def stableUuid (env : JsEnv) (seed : String) : String :=
  jsTake (env.sha256hex seed) 24

/-- Embedding of `normalizeRole`. -/
def normalizeRole : Option String → Option CopilotRole
  | none => none
  | some raw =>
    if raw = "" then none
    else
      let n := jsToLower raw
      if n = "user" ∨ n = "human" then some .user
      else if n = "assistant" ∨ n = "ai" ∨ n = "copilot" then some .assistant
      else if n = "system" then some .system
      else none

/-- Embedding of `pickMessageContent` (the `ContentResult` wrapper is flattened into
`Option`; a present-but-null `value` and an absent result coincide in the
source's uses, which only test `content === null` after `??`-chaining). -/
def pickMessageContent : Option Json → Option MessageContent
  | some (.str s) => some (.str s)
  | some (.arr xs) => some (.blocks xs)
  | some (.obj fields) =>
    match asString ((Json.obj fields).getF "text") <|> asString ((Json.obj fields).getF "value") with
    | some t => if t = "" then none else some (.str t)
    | none => none
  | _ => none

/-- Embedding of `toDateOrNow`. -/
def toDateOrNow (env : JsEnv) : Option String → Int
  | none => env.now
  | some s => if s = "" then env.now else (env.parseDate s).getD env.now

/-- A literal `{ type: 'text', text: t }` content block. -/
def textBlock (t : String) : Json :=
  Json.obj [("type", .str "text"), ("text", .str t)]

-- =============================================================================
-- jsonl.ts: structured (Claude Code) format
-- =============================================================================

/-- Embedding of `parseMessageType`. -/
def parseMessageType : Option String → Option MessageType
  | some "user" => some .user
  | some "assistant" => some .assistant
  | some "system" => some .system
  | some "summary" => some .summary
  | some "file-history-snapshot" => some .fileHistorySnapshot
  | some "queue-operation" => some .queueOperation
  | _ => none

/-- Content of a typed `message.content` field: a string or a block array;
anything else collapses to the empty string (the `?? ''` default). -/
def contentOfField : Option Json → MessageContent
  | some (.str s) => .str s
  | some (.arr xs) => .blocks xs
  | _ => .str ""

/-- Typed `message.usage` field. -/
def usageOfField : Option Json → Option TokenUsage
  | some (.obj fields) =>
    some
      { input_tokens := asNum ((Json.obj fields).getF "input_tokens")
        output_tokens := asNum ((Json.obj fields).getF "output_tokens")
        cache_read_input_tokens := asNum ((Json.obj fields).getF "cache_read_input_tokens")
        cache_creation_input_tokens := asNum ((Json.obj fields).getF "cache_creation_input_tokens") }
  | _ => none

/-- Embedding of `parseChatHistoryEntry`: the structured Claude Code format.  Field reads
follow the declared `ChatHistoryEntry` types (string/boolean fields read via
`asString`/`asBool`). -/
def parseChatHistoryEntry (env : JsEnv) (entry : Json) : Option ParsedMessage :=
  if !jsTruthy (entry.getF "uuid") then none
  else
    match parseMessageType (asString (entry.getF "type")) with
    | none => none
    | some type =>
      let conv := isConversationalType type
      let msg := entry.getF "message"
      let content : MessageContent :=
        if conv ∧ (type = .user ∨ type = .assistant) then contentOfField (getF2 msg "content")
        else .str ""
      some
      { uuid := jsToString ((entry.getF "uuid").getD .null)
        parentUuid := if conv then asString (entry.getF "parentUuid") else none
        type := type
        timestamp :=
          match asString (entry.getF "timestamp") with
          | some s => if s = "" then some env.now else env.parseDate s
          | none => some env.now
        role := if conv ∧ (type = .user ∨ type = .assistant) then asString (getF2 msg "role") else none
        content := content
        usage := if conv ∧ type = .assistant then usageOfField (getF2 msg "usage") else none
        model := if conv ∧ type = .assistant then asString (getF2 msg "model") else none
        cwd := if conv then asString (entry.getF "cwd") else none
        gitBranch := if conv then asString (entry.getF "gitBranch") else none
        agentId := if conv ∧ (type = .user ∨ type = .assistant) then asString (entry.getF "agentId") else none
        isSidechain := if conv then (asBool (entry.getF "isSidechain")).getD false else false
        isMeta := if conv ∧ (type = .user ∨ type = .system) then (asBool (entry.getF "isMeta")).getD false else false
        userType := if conv then asString (entry.getF "userType") else none
        isCompactSummary := conv ∧ type = .user ∧ isTrueVal (entry.getF "isCompactSummary")
        toolCalls := extractToolCalls content
        toolResults := extractToolResults content
        sourceToolUseID := if conv ∧ type = .user then asString (entry.getF "sourceToolUseID") else none
        sourceToolAssistantUUID := if conv ∧ type = .user then asString (entry.getF "sourceToolAssistantUUID") else none
        toolUseResult := if conv ∧ type = .user then entry.getF "toolUseResult" else none }

-- =============================================================================
-- jsonl.ts: Copilot flat role/content format
-- =============================================================================

/-- Embedding of `buildCopilotMessage`. -/
def buildCopilotMessage (env : JsEnv) (ty : CopilotRole) (content : MessageContent)
    (timestamp : Int) (uuidSeed : String) (cwd : Option String) (model : Option String) :
    ParsedMessage :=
  { uuid := stableUuid env uuidSeed
    parentUuid := none
    type := ty.toMessageType
    timestamp := some timestamp
    role := some ty.str
    content := content
    usage := none
    model := if ty = .assistant then model else none
    cwd := cwd
    gitBranch := none
    agentId := none
    isSidechain := false
    isMeta := false
    userType := if ty = .user then some "external" else none
    isCompactSummary := false
    toolCalls := extractToolCalls content
    toolResults := extractToolResults content
    sourceToolUseID := none
    sourceToolAssistantUUID := none
    toolUseResult := none }

/-- The `timestampRaw` chain of `parseCopilotMessageEntry`. -/
def copilotTimestampRaw (entry : Json) : Option String :=
  asString (entry.getF "timestamp") <|> asString (entry.getF "createdAt")
    <|> asString (entry.getF "time") <|> asString (getF2 (entry.getF "message") "timestamp")

/-- The `uuidSeed` expression of `parseCopilotMessageEntry`: an explicit uuid
or id if present, otherwise a role/timestamp seed that falls back to
`Date.now()` when the record carries no timestamp string. -/
def copilotMessageSeed (env : JsEnv) (entry : Json) (role : CopilotRole)
    (timestampRaw : Option String) : String :=
  match asString (entry.getF "uuid") <|> asString (entry.getF "id") with
  | some s => s
  | none => "copilot-" ++ role.str ++ "-" ++ timestampRaw.getD (toString env.now)

/-- Embedding of `parseCopilotMessageEntry`: the flat role/content format. -/
def parseCopilotMessageEntry (env : JsEnv) (entry : Json) : Option ParsedMessage :=
  if !entry.isObjLike then none
  else
    let roleRaw := asString (entry.getF "role") <|> asString (entry.getF "author")
      <|> asString (entry.getF "type") <|> asString (getF2 (entry.getF "message") "role")
    match normalizeRole roleRaw with
    | none => none
    | some role =>
      match pickMessageContent (entry.getF "content")
          <|> pickMessageContent (getF2 (entry.getF "message") "content")
          <|> pickMessageContent (entry.getF "text")
          <|> pickMessageContent (entry.getF "value") with
      | none => none
      | some content =>
        let timestampRaw := copilotTimestampRaw entry
        some (buildCopilotMessage env role content (toDateOrNow env timestampRaw)
          (copilotMessageSeed env entry role timestampRaw)
          (asString (entry.getF "cwd") <|> asString (entry.getF "workspacePath"))
          (asString (entry.getF "model") <|> asString (getF2 (entry.getF "message") "model")))

-- =============================================================================
-- jsonl.ts: Copilot Background Agent event format
-- =============================================================================

/-- Embedding of `case 'session.start'` of `parseCopilotEventEntry`. -/
def copilotSessionStartEvt (env : JsEnv) (data : Json) (timestamp : Int)
    (eventId : String) : Option ParsedMessage :=
  let sessionId := (asString (data.getF "sessionId")).getD ""
  some (buildCopilotMessage env .system
    (.str ("Session started (" ++ sessionId ++ ")")) timestamp
    ("copilot-event-" ++ eventId ++ "-session-start")
    (asString (data.getF "cwd") <|> asString (data.getF "workingDirectory")) none)

/-- Embedding of `case 'user.message'` of `parseCopilotEventEntry`. -/
def copilotUserMessageEvt (env : JsEnv) (data : Json) (timestamp : Int)
    (eventId : String) : Option ParsedMessage :=
  let content := (asString (data.getF "content")).getD ""
  if jsTrim content = "" then none
  else
    some (buildCopilotMessage env .user (.str content) timestamp
      ("copilot-event-" ++ eventId ++ "-user") (asString (data.getF "cwd")) none)

/-- Embedding of `case 'assistant.message'` of `parseCopilotEventEntry`. -/
def copilotAssistantMessageEvt (env : JsEnv) (data : Json) (timestamp : Int)
    (eventId : String) : Option ParsedMessage :=
  let content := (asString (data.getF "content")).getD ""
  if jsTrim content = "" then none
  else
    some (buildCopilotMessage env .assistant (.blocks [textBlock content]) timestamp
      ("copilot-event-" ++ eventId ++ "-assistant-" ++ (asString (data.getF "messageId")).getD "")
      none (asString (data.getF "model")))

/-- Embedding of `case 'assistant.message_delta'` of `parseCopilotEventEntry`. -/
def copilotDeltaEvt (env : JsEnv) (data : Json) (timestamp : Int)
    (eventId : String) : Option ParsedMessage :=
  let deltaContent := (asString (data.getF "deltaContent")).getD ""
  if jsTrim deltaContent = "" then none
  else
    some (buildCopilotMessage env .assistant (.blocks [textBlock deltaContent]) timestamp
      ("copilot-event-" ++ eventId ++ "-delta-" ++ (asString (data.getF "messageId")).getD "")
      none (asString (data.getF "model")))

/-- Embedding of `case 'tool.execution_start'` of `parseCopilotEventEntry`. -/
def copilotToolStartEvt (env : JsEnv) (data : Json) (timestamp : Int)
    (eventId : String) : Option ParsedMessage :=
  let toolName := ((asString (data.getF "toolName")) <|> (asString (data.getF "name"))).getD "unknown_tool"
  let toolInput := ((nullish (data.getF "input")) <|> (nullish (data.getF "parameters"))).getD (Json.obj [])
  let toolCallId := (asString (data.getF "toolCallId")).getD eventId
  some (buildCopilotMessage env .assistant
    (.blocks [Json.obj
      [("type", .str "tool_use"), ("id", .str toolCallId),
       ("name", .str toolName), ("input", toolInput)]])
    timestamp ("copilot-event-" ++ eventId ++ "-tool-start-" ++ toolCallId) none none)

/-- Embedding of `case 'tool.execution_complete'` of `parseCopilotEventEntry`. -/
def copilotToolCompleteEvt (env : JsEnv) (data : Json) (timestamp : Int)
    (eventId : String) : Option ParsedMessage :=
  let toolCallId := (asString (data.getF "toolCallId")).getD eventId
  let resultContent := ((asString (data.getF "output")) <|> (asString (data.getF "content"))).getD ""
  let isError := isTrueVal (data.getF "isError") ∨ asString (data.getF "status") = some "error"
  some (buildCopilotMessage env .user
    (.blocks [Json.obj
      [("type", .str "tool_result"), ("tool_use_id", .str toolCallId),
       ("content", .str resultContent), ("is_error", .bool isError)]])
    timestamp ("copilot-event-" ++ eventId ++ "-tool-complete-" ++ toolCallId) none none)

/-- Embedding of `case 'session.error'` of `parseCopilotEventEntry`. -/
def copilotSessionErrorEvt (env : JsEnv) (data : Json) (timestamp : Int)
    (eventId : String) : Option ParsedMessage :=
  let errorMsg := ((asString (data.getF "message")) <|> (asString (data.getF "error"))).getD "Unknown error"
  let errorType := (asString (data.getF "errorType")).getD "error"
  some (buildCopilotMessage env .system
    (.str ("Error (" ++ errorType ++ "): " ++ errorMsg)) timestamp
    ("copilot-event-" ++ eventId ++ "-error") none none)

/-- Embedding of `case 'session.shutdown'` of `parseCopilotEventEntry`. -/
def copilotShutdownEvt (env : JsEnv) (timestamp : Int) (eventId : String) : Option ParsedMessage :=
  some (buildCopilotMessage env .system (.str "Session ended") timestamp
    ("copilot-event-" ++ eventId ++ "-shutdown") none none)

/-- The generic default case of `parseCopilotEventEntry`: extract text from
`{content, text, message, prompt}` and classify the role by the event-name
part before the first dot. -/
def copilotGenericEvt (env : JsEnv) (eventType : String) (data : Json) (timestamp : Int)
    (eventId : String) : Option ParsedMessage :=
  match asString (data.getF "content") <|> asString (data.getF "text")
      <|> asString (data.getF "message") <|> asString (data.getF "prompt") with
  | some genericContent =>
    if genericContent ≠ "" ∧ jsTrim genericContent ≠ "" then
      let pfx := jsToLower (jsTakeUntil eventType '.')
      if pfx = "assistant" ∨ pfx = "agent" then
        some (buildCopilotMessage env .assistant
          (.blocks [textBlock (jsTrim genericContent)]) timestamp
          ("copilot-event-" ++ eventId ++ "-" ++ eventType) none
          (asString (data.getF "model")))
      else
        let role : CopilotRole := if pfx = "user" then .user else .system
        some (buildCopilotMessage env role (.str (jsTrim genericContent)) timestamp
          ("copilot-event-" ++ eventId ++ "-" ++ eventType)
          (asString (data.getF "cwd") <|> asString (data.getF "workingDirectory")) none)
    else none
  | none => none

/-- The `switch (eventType)` of `parseCopilotEventEntry`. -/
def copilotEventSwitch (env : JsEnv) (eventType : String) (data : Json) (timestamp : Int)
    (eventId : String) : Option ParsedMessage :=
  if eventType = "session.start" then copilotSessionStartEvt env data timestamp eventId
  else if eventType = "user.message" then copilotUserMessageEvt env data timestamp eventId
  else if eventType = "assistant.message" then copilotAssistantMessageEvt env data timestamp eventId
  else if eventType = "assistant.message_delta" then copilotDeltaEvt env data timestamp eventId
  else if eventType = "tool.execution_start" then copilotToolStartEvt env data timestamp eventId
  else if eventType = "tool.execution_complete" then copilotToolCompleteEvt env data timestamp eventId
  else if eventType = "session.error" then copilotSessionErrorEvt env data timestamp eventId
  else if eventType = "session.shutdown" then copilotShutdownEvt env timestamp eventId
  else copilotGenericEvt env eventType data timestamp eventId

/-- Embedding of `parseCopilotEventEntry`: the dotted event-name format. -/
def parseCopilotEventEntry (env : JsEnv) (entry : Json) : Option ParsedMessage :=
  if !entry.isObjLike then none
  else
    match asString (entry.getF "type") with
    | none => none
    | some eventType =>
      if !(jsContainsChar eventType '.') then none
      else
        match entry.getF "data" with
        | none => none
        | some data =>
          if !data.isObjLike then none
          else
            copilotEventSwitch env eventType data
              (toDateOrNow env (asString (entry.getF "timestamp") <|> asString (data.getF "timestamp")))
              ((asString (entry.getF "id") <|> asString (data.getF "id")).getD "")

-- =============================================================================
-- jsonl.ts: parent-chain synthesis and batch parsing
-- =============================================================================

/-- The closure-mutating `map` of `assignParentUuids`, with the running
`previousUuid` made explicit. -/
def assignParentUuidsAux (prev : Option String) : List ParsedMessage → List ParsedMessage
  | [] => []
  | m :: rest => { m with parentUuid := prev } :: assignParentUuidsAux (some m.uuid) rest

/-- Embedding of `assignParentUuids`: chain each message to the previous one in the given
order; the first message gets a null parent. -/
def assignParentUuids (messages : List ParsedMessage) : List ParsedMessage :=
  assignParentUuidsAux none messages

/-- Timestamp value used by the sort comparator (`Date#getTime`); all messages
sorted by the source carry valid dates. -/
def tsVal (m : ParsedMessage) : Int :=
  m.timestamp.getD 0

/-- The sort order of `messages.sort((a, b) => a.timestamp - b.timestamp)`. -/
abbrev tsLE (a b : ParsedMessage) : Prop :=
  tsVal a ≤ tsVal b

instance : DecidableRel tsLE := fun a b => inferInstanceAs (Decidable (tsVal a ≤ tsVal b))

instance : IsTotal ParsedMessage tsLE := ⟨fun a b => le_total (tsVal a) (tsVal b)⟩

instance : IsTrans ParsedMessage tsLE := ⟨fun _ _ _ => le_trans⟩

/-- Embedding of `parseCopilotMessageArray`: flat entries in file order, then chained. -/
def parseCopilotMessageArray (env : JsEnv) (items : List Json) : List ParsedMessage :=
  assignParentUuids (items.filterMap (parseCopilotMessageEntry env))

/-- One iteration of the `parseCopilotRequestArray` loop. -/
def parseCopilotRequestItem (env : JsEnv) (index : Nat) (item : Json) : List ParsedMessage :=
  if !item.isObjLike then []
  else
    let userText := asString (item.getF "prompt") <|> asString (item.getF "input")
      <|> asString (item.getF "query") <|> asString (item.getF "message")
      <|> asString (getF2 (item.getF "request") "message")
    let assistantText := asString (item.getF "response") <|> asString (item.getF "answer")
      <|> asString (item.getF "output") <|> asString (getF2 (item.getF "responseMessage") "content")
    let timestampRaw := asString (item.getF "timestamp") <|> asString (item.getF "createdAt")
      <|> asString (item.getF "time") <|> asString (getF2 (item.getF "request") "timestamp")
    let timestamp := toDateOrNow env timestampRaw
    let cwd := asString (item.getF "cwd") <|> asString (item.getF "workspacePath")
    let userPart :=
      match userText with
      | some t =>
        if jsTrim t ≠ "" then
          [buildCopilotMessage env .user (.str t) timestamp
            ("copilot-user-" ++ toString index ++ "-" ++ env.isoOf timestamp) cwd none]
        else []
      | none => []
    let assistantPart :=
      match assistantText with
      | some t =>
        if jsTrim t ≠ "" then
          let assistantTs := toDateOrNow env
            (some ((asString (getF2 (item.getF "responseMessage") "timestamp")).getD
              (env.isoOf timestamp)))
          [buildCopilotMessage env .assistant (.blocks [textBlock t]) assistantTs
            ("copilot-assistant-" ++ toString index ++ "-" ++ env.isoOf assistantTs) cwd
            (asString (item.getF "model") <|> asString (getF2 (item.getF "responseMessage") "model"))]
        else []
      | none => []
    userPart ++ assistantPart

def parseCopilotRequestArrayAux (env : JsEnv) (index : Nat) : List Json → List ParsedMessage
  | [] => []
  | item :: rest => parseCopilotRequestItem env index item ++ parseCopilotRequestArrayAux env (index + 1) rest

/-- Embedding of `parseCopilotRequestArray`: request/turn pairs, globally sorted by
timestamp (JS `Array#sort` is stable; a stable sort by a total preorder is
unique, so `List.insertionSort` computes the same result), then chained. -/
def parseCopilotRequestArray (env : JsEnv) (items : List Json) : List ParsedMessage :=
  assignParentUuids (List.insertionSort tsLE (parseCopilotRequestArrayAux env 0 items))

/-- Embedding of `parseCopilotTranscript`: whole-document shape dispatch. -/
def parseCopilotTranscript (env : JsEnv) (data : Json) : List ParsedMessage :=
  match data with
  | .arr items => parseCopilotMessageArray env items
  | .obj fields =>
    match (Json.obj fields).getF "messages" with
    | some (.arr ms) => parseCopilotMessageArray env ms
    | _ =>
      match (Json.obj fields).getF "requests" with
      | some (.arr rs) => parseCopilotRequestArray env rs
      | _ =>
        match (Json.obj fields).getF "turns" with
        | some (.arr ts) => parseCopilotRequestArray env ts
        | _ =>
          match parseCopilotMessageEntry env (Json.obj fields) with
          | some m => [m]
          | none => []
  | _ => []

/-- The `hasCopilotEvents` probe of `consolidateCopilotDeltas`. -/
def isSessionStartMsg (m : ParsedMessage) : Bool :=
  decide (m.type = MessageType.system) &&
    match m.content with
    | .str s => jsStartsWith s "Session started"
    | .blocks _ => false

/-- Embedding of `consolidateCopilotDeltas`: for dotted-event-sourced files (detected by a
synthesized "Session started" system message) the parent chain is recomputed
in file order; otherwise a no-op. -/
def consolidateCopilotDeltas (messages : List ParsedMessage) : List ParsedMessage :=
  if messages.any isSessionStartMsg then assignParentUuids messages else messages

-- =============================================================================
-- jsonl.ts: line- and file-level entry points
-- =============================================================================

/-- The record-level part of `parseJsonlLine` (after `JSON.parse`): try the
structured format, then the dotted event format, then the flat format. -/
def parseJsonlRecord (env : JsEnv) (entry : Json) : Option ParsedMessage :=
  match parseChatHistoryEntry env entry with
  | some m => some m
  | none =>
    match parseCopilotEventEntry env entry with
    | some m => some m
    | none => parseCopilotMessageEntry env entry

/-- Embedding of `parseJsonlLine` on a raw line: blank lines yield `null`; a `JSON.parse`
failure is an exception propagated to the caller (`Except.error`). -/
def parseJsonlLineE (env : JsEnv) (line : String) : Except Unit (Option ParsedMessage) :=
  if jsTrim line = "" then .ok none
  else
    match env.jsonParse line with
    | none => .error ()
    | some entry => .ok (parseJsonlRecord env entry)

/-- One iteration of the per-line collection loop of `parseJsonlFile`: blank
lines are skipped, parse exceptions are caught, logged and skipped, successes
are accumulated. -/
def collectLineStep (env : JsEnv) (acc : List ParsedMessage) (line : String) : List ParsedMessage :=
  if jsTrim line = "" then acc
  else
    match parseJsonlLineE env line with
    | .error _ => acc
    | .ok none => acc
    | .ok (some m) => acc ++ [m]

/-- The per-line collection loop of `parseJsonlFile`. -/
def collectLineMessages (env : JsEnv) (lines : List String) : List ParsedMessage :=
  lines.foldl (collectLineStep env) []

/-- Embedding of `parseCopilotJsonFile`: whole-document fallback; a read or `JSON.parse`
failure (`doc = none`) yields zero messages. -/
def parseCopilotJsonFile (env : JsEnv) (doc : Option Json) : List ParsedMessage :=
  match doc with
  | none => []
  | some d => parseCopilotTranscript env d

/-- Embedding of `parseJsonlFile`.  `lines` is the streamed line view of the file and `doc`
the whole-document `JSON.parse` view (both provided by the file-system
provider; a missing file is the empty line list with no document). -/
def parseJsonlFile (env : JsEnv) (filePath : String) (lines : List String)
    (doc : Option Json) : List ParsedMessage :=
  let messages := collectLineMessages env lines
  if messages.isEmpty ∧ (jsEndsWith (jsToLower filePath) ".json") then
    parseCopilotJsonFile env doc
  else consolidateCopilotDeltas messages

-- =============================================================================
-- jsonl.ts: calculateMetrics
-- =============================================================================

/-- The single accumulation loop over `msg.usage` (four counters:
input, output, cache-read, cache-creation). -/
def calcTokens (msgs : List ParsedMessage) : Int × Int × Int × Int :=
  msgs.foldl
    (fun acc m =>
      match m.usage with
      | none => acc
      | some u =>
        (acc.1 + u.input_tokens.getD 0,
         acc.2.1 + u.output_tokens.getD 0,
         acc.2.2.1 + u.cache_read_input_tokens.getD 0,
         acc.2.2.2 + u.cache_creation_input_tokens.getD 0))
    (0, 0, 0, 0)

/-- The min/max timestamp scan (a fold, mirroring the source's explicit loop
over `timestamps` with both accumulators seeded from the head). -/
def minMaxTimes (ts : List Int) : Int × Int :=
  match ts with
  | [] => (0, 0)
  | h :: t =>
    t.foldl (fun acc x => (if x < acc.1 then x else acc.1, if x > acc.2 then x else acc.2)) (h, h)

/-- Embedding of `calculateMetrics`. -/
def calculateMetrics (msgs : List ParsedMessage) : SessionMetrics :=
  if msgs.isEmpty then EMPTY_METRICS
  else
    let timestamps := msgs.filterMap (·.timestamp)
    let mm := minMaxTimes timestamps
    let tok := calcTokens msgs
    let costUsd : Int := 0
    { durationMs := mm.2 - mm.1
      totalTokens := tok.1 + tok.2.2.2 + tok.2.2.1 + tok.2.1
      inputTokens := tok.1
      outputTokens := tok.2.1
      cacheReadTokens := tok.2.2.1
      cacheCreationTokens := tok.2.2.2
      messageCount := msgs.length
      costUsd := if costUsd > 0 then some costUsd else none }

-- =============================================================================
-- jsonl.ts: analyzeSessionFileMetadata — state
-- =============================================================================

/-- Title-preview accumulator of the streaming analyzer. -/
structure TitleState where
  firstUserMessage : Option (String × String)
  firstCommandMessage : Option (String × String)
  firstAssistantMessage : Option (String × String)
  sessionMetadataFallback : Option (String × String)
deriving DecidableEq

/-- Message-counting accumulator. -/
structure CountState where
  messageCount : Nat
  totalConversationalEntries : Nat
  awaitingAIGroup : Bool
deriving DecidableEq

/-- Liveness accumulator (`activityIndex`, `lastEndingIndex`,
`hasAnyOngoingActivity`, `hasActivityAfterLastEnding`). -/
structure LiveState where
  activityIndex : Nat
  lastEndingIndex : Int
  hasAnyOngoingActivity : Bool
  hasActivityAfterLastEnding : Bool
deriving DecidableEq

/-- Context-consumption accumulator (`lastMainAssistantInputTokens`,
`compactionPhases` as (pre, post) pairs, `awaitingPostCompaction`). -/
structure CtxState where
  lastMainAssistantInputTokens : Int
  compactionPhases : List (Int × Int)
  awaitingPostCompaction : Bool
deriving DecidableEq

/-- Full analyzer state, grouped by concern (the source keeps the same
variables as flat locals; the grouping only packages them). -/
structure AnalyzerState where
  title : TitleState
  count : CountState
  live : LiveState
  shutdownToolIds : List String
  gitBranch : Option String
  ctx : CtxState

def initAnalyzerState : AnalyzerState :=
  { title := ⟨none, none, none, none⟩
    count := ⟨0, 0, false⟩
    live := ⟨0, -1, false, false⟩
    shutdownToolIds := []
    gitBranch := none
    ctx := ⟨0, [], false⟩ }

/-- Embedding of `lastEndingIndex = activityIndex++; hasActivityAfterLastEnding = false`. -/
def recordEnding (s : LiveState) : LiveState :=
  { s with
    lastEndingIndex := (s.activityIndex : Int)
    activityIndex := s.activityIndex + 1
    hasActivityAfterLastEnding := false }

/-- Embedding of `hasAnyOngoingActivity = true; if (lastEndingIndex >= 0)
hasActivityAfterLastEnding = true; activityIndex++`. -/
def recordOngoing (s : LiveState) : LiveState :=
  { s with
    hasAnyOngoingActivity := true
    hasActivityAfterLastEnding :=
      if s.lastEndingIndex ≥ 0 then true else s.hasActivityAfterLastEnding
    activityIndex := s.activityIndex + 1 }

-- =============================================================================
-- jsonl.ts: analyzeSessionFileMetadata — dotted (Copilot event) branch
-- =============================================================================

/-- The `copilotTs` expression of the dotted branch. -/
def dottedTs (env : JsEnv) (entry : Json) : String :=
  ((asString (entry.getF "timestamp")) <|> (asString (getF2 (entry.getF "data") "timestamp"))).getD
    env.nowIso

/-- The `copilotContent` expression of the dotted branch: first string among
`data.{content, text, message, prompt}`, trimmed. -/
def dottedContent (entry : Json) : Option String :=
  let dataO := entry.getF "data"
  if jsTruthy dataO then
    ((asString (getF2 dataO "content")).map jsTrim)
      <|> ((asString (getF2 dataO "text")).map jsTrim)
      <|> ((asString (getF2 dataO "message")).map jsTrim)
      <|> ((asString (getF2 dataO "prompt")).map jsTrim)
  else none

/-- The anchored alternation of `/^session\.(end|…)$/`. -/
def sessionEndNames : List String :=
  ["session.end", "session.ended", "session.stop", "session.stopped", "session.complete",
   "session.completed", "session.close", "session.closed", "session.shutdown", "session.error"]

/-- Embedding of `/^tool\..*(sfx₁|…)$/.test s`: the whole string is `tool.` ++ anything ++
one of the suffixes. -/
def toolPatternTest (suffixes : List String) (s : String) : Bool :=
  jsStartsWith s "tool." && suffixes.any (fun sfx => jsEndsWith s sfx && sfx.length + 5 ≤ s.length)

def toolStartSuffixes : List String :=
  ["start", "started", "begin", "began", "invoke", "invoked", "call", "called"]

def toolEndSuffixes : List String :=
  ["complete", "completed", "finish", "finished", "result", "error", "end", "ended"]

def isAssistantDeltaEvt (lower : String) : Bool := lower = "assistant.message_delta"

def isAssistantEndingEvt (lower : String) (copilotContent : Option String) : Bool :=
  jsStartsWith lower "assistant." && !isAssistantDeltaEvt lower && copilotContent.getD "" ≠ ""

def isSessionEndingEvt (lower : String) : Bool :=
  lower = "session.shutdown" || lower = "session.error" || sessionEndNames.contains lower

def isToolStartActivityEvt (lower : String) : Bool :=
  lower = "tool.execution_start" || toolPatternTest toolStartSuffixes lower

def isToolEndingEvt (lower : String) : Bool :=
  lower = "tool.execution_complete" || toolPatternTest toolEndSuffixes lower

/-- Liveness update of the dotted branch. -/
def dottedLive (eventType : String) (copilotContent : Option String) (s : LiveState) : LiveState :=
  let lower := jsToLower eventType
  if isAssistantEndingEvt lower copilotContent || isSessionEndingEvt lower
      || isToolEndingEvt lower then
    recordEnding s
  else if isToolStartActivityEvt lower || isAssistantDeltaEvt lower then
    recordOngoing s
  else s

/-- Title and count updates of the dotted branch. -/
def dottedTitleCount (env : JsEnv) (entry : Json) (eventType : String)
    (t : TitleState) (c : CountState) : TitleState × CountState :=
  let copilotTs := dottedTs env entry
  let copilotContent := dottedContent entry
  let dataO := entry.getF "data"
  -- user messages: user.message, user.request, user.prompt, …
  let (t, c) :=
    if jsStartsWith eventType "user." ∧ copilotContent.getD "" ≠ "" then
      let c := { c with
        messageCount := c.messageCount + 1
        totalConversationalEntries := c.totalConversationalEntries + 1 }
      let t :=
        if t.firstUserMessage = none then
          let sanitized := env.sanitize (copilotContent.getD "")
          if sanitized ≠ "" then
            { t with firstUserMessage := some (jsTake sanitized 500, copilotTs) }
          else t
        else t
      (t, c)
    else (t, c)
  -- assistant messages (deltas excluded)
  let (t, c) :=
    if jsStartsWith eventType "assistant." ∧ eventType ≠ "assistant.message_delta" then
      let c := { c with totalConversationalEntries := c.totalConversationalEntries + 1 }
      let t :=
        if t.firstAssistantMessage = none ∧ copilotContent.getD "" ≠ "" then
          let sanitized := env.sanitize (copilotContent.getD "")
          if sanitized ≠ "" then
            { t with firstAssistantMessage := some (jsTake sanitized 500, copilotTs) }
          else t
        else t
      (t, c)
    else (t, c)
  -- session.start fallback label
  let t :=
    if eventType = "session.start" ∧ jsTruthy dataO ∧ t.sessionMetadataFallback = none then
      let label := asString (getF2 dataO "title") <|> asString (getF2 dataO "name")
        <|> ((asString (getF2 dataO "producer")).map (fun p => p ++ " session"))
        <|> ((asString (getF2 dataO "sessionId")).map (fun sid => "Session " ++ jsTake sid 8))
      match label with
      | some l => { t with sessionMetadataFallback := some (l, copilotTs) }
      | none => t
    else t
  (t, c)

/-- The full dotted-event branch of the per-line loop. -/
def dottedStep (env : JsEnv) (entry : Json) (eventType : String)
    (st : AnalyzerState) : AnalyzerState :=
  let tc := dottedTitleCount env entry eventType st.title st.count
  { st with
    title := tc.1
    count := tc.2
    live := dottedLive eventType (dottedContent entry) st.live }

-- =============================================================================
-- jsonl.ts: analyzeSessionFileMetadata — unparsed (no-uuid) branch
-- =============================================================================

/-- The `/<command-name>\/([^<]+)<\/command-name>/` capture, scanning from the
left; the greedy `[^<]+` needs no backtracking since the close tag starts with
`<`. -/
def commandCaptureFrom : List Char → Option String
  | [] => none
  | c :: rest =>
    if ("<command-name>/".toList).isPrefixOf (c :: rest) then
      let after := (c :: rest).drop "<command-name>/".length
      let capture := after.takeWhile (· ≠ '<')
      if capture ≠ [] ∧ ("</command-name>".toList).isPrefixOf (after.drop capture.length) then
        some (String.mk capture)
      else commandCaptureFrom rest
    else commandCaptureFrom rest

/-- Embedding of `commandMatch ? `/${commandMatch[1]}` : '/command'`. -/
def commandLabel (content : String) : String :=
  match commandCaptureFrom content.toList with
  | some name => "/" ++ name
  | none => "/command"

/-- Embedding of `claudeEntry.timestamp ?? new Date().toISOString()`. -/
def tsOrNowIso (env : JsEnv) (entry : Json) : String :=
  (asString (entry.getF "timestamp")).getD env.nowIso

/-- Join the `text` of the `text`-typed blocks with spaces
(`content.filter(isTextContent).map(b => b.text).join(' ')`). -/
def joinTextBlocks (bs : List Json) : String :=
  String.intercalate " " ((bs.filter isTextBlock).map (fun b => (asString (b.getF "text")).getD ""))

/-- Count update when `parseChatHistoryEntry` returned null: entries typed
user/assistant still count toward `totalConversationalEntries`. -/
def unparsedCount (entry : Json) (c : CountState) : CountState :=
  let typeS := asString (entry.getF "type")
  if typeS = some "user" ∨ typeS = some "assistant" then
    { c with totalConversationalEntries := c.totalConversationalEntries + 1 }
  else c

/-- Title fallbacks when `parseChatHistoryEntry` returned null. -/
def unparsedTitle (env : JsEnv) (entry : Json) (t : TitleState) : TitleState :=
  let typeS := asString (entry.getF "type")
  let t :=
    if t.firstUserMessage = none ∧ typeS = some "user" then
      match asString (getF2 (entry.getF "message") "content") with
      | some content =>
        if env.isCommandOutput content ∨ jsStartsWith content "[Request interrupted by user" then t
        else if jsStartsWith content "<command-name>" then
          if t.firstCommandMessage = none then
            { t with firstCommandMessage := some (commandLabel content, tsOrNowIso env entry) }
          else t
        else
          let sanitized := env.sanitize content
          if sanitized ≠ "" then
            { t with firstUserMessage := some (jsTake sanitized 500, tsOrNowIso env entry) }
          else t
      | none => t
    else t
  if t.firstAssistantMessage = none ∧ typeS = some "assistant" then
    match getF2 (entry.getF "message") "content" with
    | some (.arr bs) =>
      let textContent := jsTrim (joinTextBlocks bs)
      if textContent ≠ "" then
        { t with firstAssistantMessage := some (jsTake textContent 500, tsOrNowIso env entry) }
      else t
    | _ => t
  else t

def unparsedStep (env : JsEnv) (entry : Json) (st : AnalyzerState) : AnalyzerState :=
  { st with
    title := unparsedTitle env entry st.title
    count := unparsedCount entry st.count }

-- =============================================================================
-- jsonl.ts: analyzeSessionFileMetadata — parsed (structured) branch
-- =============================================================================

/-- Embedding of `totalConversationalEntries++` followed by the user/assistant pairing. -/
def parsedCount (env : JsEnv) (p : ParsedMessage) (c : CountState) : CountState :=
  let c := { c with totalConversationalEntries := c.totalConversationalEntries + 1 }
  if env.isUserChunkMsg p then
    { c with messageCount := c.messageCount + 1, awaitingAIGroup := true }
  else if c.awaitingAIGroup ∧ p.type = .assistant ∧ p.model ≠ some "<synthetic>"
      ∧ ¬p.isSidechain then
    { c with messageCount := c.messageCount + 1, awaitingAIGroup := false }
  else c

/-- Embedding of `if (!gitBranch && 'gitBranch' in claudeEntry && claudeEntry.gitBranch)`. -/
def parsedGitBranch (entry : Json) (g : Option String) : Option String :=
  if g = none ∧ jsTruthy (entry.getF "gitBranch") then
    match asString (entry.getF "gitBranch") with
    | some s => some s
    | none => g
  else g

/-- First-user-message extraction of the parsed branch. -/
def parsedTitleUser (env : JsEnv) (entry : Json) (t : TitleState) : TitleState :=
  if t.firstUserMessage = none ∧ asString (entry.getF "type") = some "user" then
    match getF2 (entry.getF "message") "content" with
    | some (.str content) =>
      if env.isCommandOutput content then t
      else if jsStartsWith content "[Request interrupted by user" then t
      else if jsStartsWith content "<command-name>" then
        if t.firstCommandMessage = none then
          { t with firstCommandMessage := some (commandLabel content, tsOrNowIso env entry) }
        else t
      else
        let sanitized := env.sanitize content
        if sanitized ≠ "" then
          { t with firstUserMessage := some (jsTake sanitized 500, tsOrNowIso env entry) }
        else t
    | some (.arr bs) =>
      let textContent := joinTextBlocks bs
      if textContent ≠ "" ∧ ¬jsStartsWith textContent "<command-name>"
          ∧ ¬jsStartsWith textContent "[Request interrupted by user" then
        let sanitized := env.sanitize textContent
        if sanitized ≠ "" then
          { t with firstUserMessage := some (jsTake sanitized 500, tsOrNowIso env entry) }
        else t
      else t
    | _ => t
  else t

/-- First-assistant-text fallback of the parsed branch. -/
def parsedTitleAssistant (env : JsEnv) (entry : Json) (t : TitleState) : TitleState :=
  if t.firstAssistantMessage = none ∧ asString (entry.getF "type") = some "assistant" then
    match getF2 (entry.getF "message") "content" with
    | some (.arr bs) =>
      let textContent := jsTrim (joinTextBlocks bs)
      if textContent ≠ "" then
        let sanitized := env.sanitize textContent
        if sanitized ≠ "" then
          { t with firstAssistantMessage := some (jsTake sanitized 500, tsOrNowIso env entry) }
        else t
      else t
    | _ => t
  else t

/-- One assistant content block of the liveness scan. -/
def assistantBlockStep (b : Json) : LiveState × List String → LiveState × List String :=
  fun sp =>
    let s := sp.1
    let sh := sp.2
    if isStrField b "type" "thinking" ∧ jsTruthy (b.getF "thinking") then (recordOngoing s, sh)
    else if isStrField b "type" "tool_use" ∧ jsTruthy (b.getF "id") then
      if isStrField b "name" "ExitPlanMode" then (recordEnding s, sh)
      else if isStrField b "name" "SendMessage"
          ∧ isStrField ((b.getF "input").getD .null) "type" "shutdown_response"
          ∧ isTrueVal (getF2 (b.getF "input") "approve") then
        (recordEnding s, sh ++ [jsToString ((b.getF "id").getD .null)])
      else (recordOngoing s, sh)
    else if isStrField b "type" "text" ∧ jsTruthy (b.getF "text")
        ∧ jsTrim (jsToString ((b.getF "text").getD .null)) ≠ "" then
      (recordEnding s, sh)
    else sp

/-- Embedding of `claudeEntry.toolUseResult === 'User rejected tool use'`. -/
def isRejectionOf (entry : Json) : Bool :=
  asString (entry.getF "toolUseResult") = some "User rejected tool use"

/-- One user content block of the liveness scan. -/
def userBlockStep (isRejection : Bool) (b : Json) :
    LiveState × List String → LiveState × List String :=
  fun sp =>
    let s := sp.1
    let sh := sp.2
    if isStrField b "type" "tool_result" ∧ jsTruthy (b.getF "tool_use_id") then
      if sh.contains (jsToString ((b.getF "tool_use_id").getD .null)) ∨ isRejection then
        (recordEnding s, sh)
      else (recordOngoing s, sh)
    else if isStrField b "type" "text"
        && (match asString (b.getF "text") with
            | some txt => jsStartsWith txt "[Request interrupted by user"
            | none => false) then
      (recordEnding s, sh)
    else sp

/-- Liveness scan over the parsed message's content blocks. -/
def liveSteps (entry : Json) (p : ParsedMessage) :
    LiveState × List String → LiveState × List String :=
  fun sp =>
    match p.type, p.content with
    | .assistant, .blocks bs => bs.foldl (fun acc b => assistantBlockStep b acc) sp
    | .user, .blocks bs =>
      bs.foldl (fun acc b => userBlockStep (isRejectionOf entry) b acc) sp
    | _, _ => sp

/-- Embedding of `input_tokens + cache_read_input_tokens + cache_creation_input_tokens`. -/
def usageIn (p : ParsedMessage) : Int :=
  match p.usage with
  | none => 0
  | some u => u.input_tokens.getD 0 + u.cache_read_input_tokens.getD 0
      + u.cache_creation_input_tokens.getD 0

/-- Set the `post` of the last compaction phase
(`compactionPhases[compactionPhases.length - 1].post = n`). -/
def setLastPost (ps : List (Int × Int)) (post : Int) : List (Int × Int) :=
  match ps with
  | [] => []
  | [q] => [(q.1, post)]
  | q :: rest => q :: setLastPost rest post

/-- Main-thread input-token tracking. -/
def ctxTokenStep (p : ParsedMessage) (c : CtxState) : CtxState :=
  if p.type = .assistant ∧ ¬p.isSidechain ∧ p.model ≠ some "<synthetic>" then
    let inputTokens := usageIn p
    if inputTokens > 0 then
      let c :=
        if c.awaitingPostCompaction ∧ c.compactionPhases ≠ [] then
          { c with
            compactionPhases := setLastPost c.compactionPhases inputTokens
            awaitingPostCompaction := false }
        else c
      { c with lastMainAssistantInputTokens := inputTokens }
    else c
  else c

/-- Compaction-marker detection. -/
def ctxCompactStep (p : ParsedMessage) (c : CtxState) : CtxState :=
  if p.isCompactSummary then
    { c with
      compactionPhases := c.compactionPhases ++ [(c.lastMainAssistantInputTokens, 0)]
      awaitingPostCompaction := true }
  else c

/-- The full parsed-entry branch of the per-line loop (the source's statement
groups touch disjoint state, so they are assembled in parallel). -/
def parsedStep (env : JsEnv) (entry : Json) (p : ParsedMessage)
    (st : AnalyzerState) : AnalyzerState :=
  let ls := liveSteps entry p (st.live, st.shutdownToolIds)
  { title := parsedTitleAssistant env entry (parsedTitleUser env entry st.title)
    count := parsedCount env p st.count
    live := ls.1
    shutdownToolIds := ls.2
    gitBranch := parsedGitBranch entry st.gitBranch
    ctx := ctxCompactStep p (ctxTokenStep p st.ctx) }

-- =============================================================================
-- jsonl.ts: analyzeSessionFileMetadata — per-line loop and final result
-- =============================================================================

/-- One iteration of the `for await (const line of rl)` loop. -/
def analyzeLine (env : JsEnv) (st : AnalyzerState) (line : String) : AnalyzerState :=
  if jsTrim line = "" then st
  else
    match env.jsonParse line with
    | none => st
    | some entry =>
      let eventType := (asString (entry.getF "type")).getD ""
      if jsContainsChar eventType '.' then dottedStep env entry eventType st
      else
        match parseChatHistoryEntry env entry with
        | none => unparsedStep env entry st
        | some p => parsedStep env entry p st

/-- Analyzer output record (`SessionFileMetadata`). -/
structure SessionFileMetadata where
  firstUserMessage : Option (String × String)
  messageCount : Nat
  isOngoing : Bool
  gitBranch : Option String
  contextConsumption : Option Int
  compactionCount : Option Nat
  phaseBreakdown : Option (List PhaseTokenBreakdown)
deriving DecidableEq

/-- The middle-phase loop of the final breakdown: phase `i ≥ 2` contributes
`pre[i] − post[i−1]`; returns the summed contributions and the entries. -/
def middleAcc (prev : Int × Int) (rest : List (Int × Int)) (num : Nat) :
    Int × List PhaseTokenBreakdown :=
  match rest with
  | [] => (0, [])
  | q :: qs =>
    let contribution := q.1 - prev.2
    let t := middleAcc q qs (num + 1)
    (contribution + t.1, ⟨num, contribution, q.1, some q.2⟩ :: t.2)

/-- The final context-consumption computation (lines after the scan):
`(contextConsumption, phaseBreakdown)`. -/
def ctxResult (c : CtxState) : Option Int × Option (List PhaseTokenBreakdown) :=
  if c.lastMainAssistantInputTokens > 0 then
    match c.compactionPhases with
    | [] =>
      (some c.lastMainAssistantInputTokens,
       some [⟨1, c.lastMainAssistantInputTokens, c.lastMainAssistantInputTokens, none⟩])
    | ph0 :: rest =>
      let first : PhaseTokenBreakdown := ⟨1, ph0.1, ph0.1, some ph0.2⟩
      let mid := middleAcc ph0 rest 2
      let base := ph0.1 + mid.1
      let lastPhase := rest.getLastD ph0
      if lastPhase.2 > 0 then
        let lastContribution := c.lastMainAssistantInputTokens - lastPhase.2
        (some (base + lastContribution),
         some ((first :: mid.2) ++
           [⟨(ph0 :: rest).length + 1, lastContribution, c.lastMainAssistantInputTokens, none⟩]))
      else (some base, some (first :: mid.2))
  else (none, none)

/-- Embedding of `analyzeSessionFileMetadata`: the single streaming pass plus the final
computation.  `lines` is the streamed line view of the file (a missing file is
the empty list). -/
def analyzeSessionFileMetadata (env : JsEnv) (lines : List String) : SessionFileMetadata :=
  let st := lines.foldl (analyzeLine env) initAnalyzerState
  let cr := ctxResult st.ctx
  { firstUserMessage := st.title.firstUserMessage <|> st.title.firstCommandMessage
      <|> st.title.firstAssistantMessage <|> st.title.sessionMetadataFallback
    messageCount :=
      if st.count.messageCount > 0 then st.count.messageCount
      else st.count.totalConversationalEntries
    isOngoing :=
      if st.live.lastEndingIndex = -1 then st.live.hasAnyOngoingActivity
      else st.live.hasActivityAfterLastEnding
    gitBranch := st.gitBranch
    contextConsumption := cr.1
    compactionCount :=
      if st.ctx.compactionPhases.length > 0 then some st.ctx.compactionPhases.length else none
    phaseBreakdown := cr.2 }

-- =============================================================================
-- SessionSearcher.ts: match collection and context extraction
-- =============================================================================

/-- Scan for the first occurrence of `pat` at or after position `i`
(in characters). -/
def findSub (pat : List Char) : List Char → Nat → Option Nat
  | [], i => if pat = [] then some i else none
  | c :: rest, i => if pat.isPrefixOf (c :: rest) then some i else findSub pat rest (i + 1)

/-- JavaScript `s.indexOf(pat, start)` returning `none` for `-1`. -/
def jsIndexOfFrom (s pat : String) (start : Nat) : Option Nat :=
  findSub pat.toList (s.toList.drop start) 0 |>.map (· + start)

/-- JavaScript `s.slice(start, end)` for already-clamped `start ≤ end`. -/
def jsSlice (s : String) (a b : Nat) : String :=
  String.mk ((s.toList.drop a).take (b - a))

/-- Non-overlapping occurrence count (the JS `indexOf`/advance-by-length
scan); structurally recursive on a fuel bounded by the text length (each step
consumes at least one character, so the fuel never runs out). -/
def countOccFuel (pat : List Char) : Nat → List Char → Nat
  | 0, _ => 0
  | _, [] => 0
  | fuel + 1, c :: rest =>
    if pat.isPrefixOf (c :: rest) then 1 + countOccFuel pat fuel (rest.drop (pat.length - 1))
    else countOccFuel pat fuel rest

def countOcc (s pat : String) : Nat :=
  countOccFuel pat.toList s.toList.length s.toList

/-- A searchable item handed to the match collector. -/
structure SearchableEntry where
  text : String
  groupId : String
  messageType : String
  itemType : String
  timestamp : Int
  messageUuid : String

/-- A single search result (`SearchResult`). -/
structure SearchResult where
  sessionId : String
  projectId : String
  sessionTitle : String
  matchedText : String
  context : String
  messageType : String
  timestamp : Int
  groupId : String
  itemType : String
  matchIndexInItem : Nat
  matchStartOffset : Nat
  messageUuid : String

/-- Modelled from the spec: `findMarkdownSearchMatches` of the external
markdown-search module performs case-insensitive substring matching against the
plain-text rendering and yields each occurrence with its running per-item match
index; only `matchIndexInItem` and the match count are consumed here, so a
match is represented by its index. -/
def findMarkdownSearchMatches (env : JsEnv) (text query : String) : List Nat :=
  List.range (countOcc (jsToLower (env.mdPlain text)) query)

/-- The `pos`-advancing loop that skips the first `matchIndexInItem`
occurrences. -/
def skipMatches (lower query : String) : Nat → Nat → Nat
  | 0, pos => pos
  | k + 1, pos =>
    match jsIndexOfFrom lower query pos with
    | none => pos
    | some idx => skipMatches lower query k (idx + query.length)

/-- One pushed `SearchResult` of `collectMatchesForEntry`. -/
def mkSearchResult (entry : SearchableEntry) (query plain lower : String)
    (projectId sessionId : String) (sessionTitle : Option String) (mIdx : Nat) : SearchResult :=
  let pos := skipMatches lower query mIdx 0
  let matchPos := jsIndexOfFrom lower query pos
  let effectivePos := matchPos.getD 0
  let contextStart := effectivePos - 50
  let contextEnd := min plain.length (effectivePos + query.length + 50)
  let context := jsSlice plain contextStart contextEnd
  { sessionId := sessionId
    projectId := projectId
    sessionTitle := sessionTitle.getD "Untitled Session"
    matchedText :=
      match matchPos with
      | some mp => jsSlice plain mp (mp + query.length)
      | none => query
    context := (if contextStart > 0 then "..." else "") ++ context
      ++ (if contextEnd < plain.length then "..." else "")
    messageType := entry.messageType
    timestamp := entry.timestamp
    groupId := entry.groupId
    itemType := entry.itemType
    matchIndexInItem := mIdx
    matchStartOffset := effectivePos
    messageUuid := entry.messageUuid }

/-- The `for (const mdMatch of mdMatches)` loop, stopping at `maxResults`. -/
def collectLoop (entry : SearchableEntry) (query plain lower : String) (maxResults : Nat)
    (projectId sessionId : String) (sessionTitle : Option String)
    (acc : List SearchResult) : List Nat → List SearchResult
  | [] => acc
  | mIdx :: ms =>
    if acc.length ≥ maxResults then acc
    else
      collectLoop entry query plain lower maxResults projectId sessionId sessionTitle
        (acc ++ [mkSearchResult entry query plain lower projectId sessionId sessionTitle mIdx]) ms

/-- Embedding of `SessionSearcher.collectMatchesForEntry` (the `results` array is passed and
returned explicitly). -/
def collectMatchesForEntry (env : JsEnv) (entry : SearchableEntry) (query : String)
    (results : List SearchResult) (maxResults : Nat) (projectId sessionId : String)
    (sessionTitle : Option String) : List SearchResult :=
  let mdMatches := findMarkdownSearchMatches env entry.text query
  if mdMatches.isEmpty then results
  else
    let plain := env.mdPlain entry.text
    let lower := jsToLower plain
    collectLoop entry query plain lower maxResults projectId sessionId sessionTitle results
      mdMatches

-- =============================================================================
-- Specification-side definitions (for comparison with the code)
-- =============================================================================

/-- The priority order stated by the spec for §4.1: structured format first,
then the flat role/content format, then the dotted event-name format.  Defined
for comparison with `parseJsonlRecord`. -/
def specOrderParse (env : JsEnv) (entry : Json) : Option ParsedMessage :=
  match parseChatHistoryEntry env entry with
  | some m => some m
  | none =>
    match parseCopilotMessageEntry env entry with
    | some m => some m
    | none => parseCopilotEventEntry env entry

/-- Plain-text content projection (used to distinguish parse results). -/
def plainContentOf (o : Option ParsedMessage) : Option String :=
  o.bind fun m =>
    match m.content with
    | .str s => some s
    | .blocks _ => none

/-- The claim's parent-chain property: sorting the batch by timestamp yields a
list whose `parentId` links walk it in order from a null-parent head. -/
def tsChained (l : List ParsedMessage) : Prop :=
  (List.insertionSort tsLE l).Chain' (fun a b => b.parentUuid = some a.uuid)
  ∧ ∀ m, (List.insertionSort tsLE l).head? = some m → m.parentUuid = none

/-- The claim's context-window formula: the plain-text slice from
`max(0, off − 50)` to `min(len, off + qlen + 50)`, with ellipsis markers
exactly when clamped. -/
def contextWindow (plain query : String) (off : Nat) : String :=
  let s := max 0 (off - 50)
  let e := min plain.length (off + query.length + 50)
  (if 0 < s then "..." else "") ++ jsSlice plain s e
    ++ (if e < plain.length then "..." else "")

-- Liveness classification stream (the claim's "classified events").

/-- Event classification of the liveness state machine. -/
inductive SEvent where
  | ongoing
  | ending
deriving DecidableEq

/-- The state-machine transition for one classified event. -/
def applyEvent (s : LiveState) : SEvent → LiveState
  | .ongoing => recordOngoing s
  | .ending => recordEnding s

/-- Classification of a dotted (Copilot) event line. -/
def dottedClass (eventType : String) (copilotContent : Option String) : Option SEvent :=
  let lower := jsToLower eventType
  if isAssistantEndingEvt lower copilotContent || isSessionEndingEvt lower
      || isToolEndingEvt lower then some .ending
  else if isToolStartActivityEvt lower || isAssistantDeltaEvt lower then some .ongoing
  else none

/-- Classification of one assistant content block, together with the shutdown
tool-call ids it records. -/
def assistantBlockClass (b : Json) : Option SEvent × List String :=
  if isStrField b "type" "thinking" ∧ jsTruthy (b.getF "thinking") then (some .ongoing, [])
  else if isStrField b "type" "tool_use" ∧ jsTruthy (b.getF "id") then
    if isStrField b "name" "ExitPlanMode" then (some .ending, [])
    else if isStrField b "name" "SendMessage"
        ∧ isStrField ((b.getF "input").getD .null) "type" "shutdown_response"
        ∧ isTrueVal (getF2 (b.getF "input") "approve") then
      (some .ending, [jsToString ((b.getF "id").getD .null)])
    else (some .ongoing, [])
  else if isStrField b "type" "text" ∧ jsTruthy (b.getF "text")
      ∧ jsTrim (jsToString ((b.getF "text").getD .null)) ≠ "" then (some .ending, [])
  else (none, [])

/-- Classification of one user content block (relative to the remembered
shutdown ids and the rejection marker). -/
def userBlockClass (sh : List String) (isRejection : Bool) (b : Json) : Option SEvent :=
  if isStrField b "type" "tool_result" ∧ jsTruthy (b.getF "tool_use_id") then
    if sh.contains (jsToString ((b.getF "tool_use_id").getD .null)) ∨ isRejection then
      some .ending
    else some .ongoing
  else if isStrField b "type" "text"
      && (match asString (b.getF "text") with
          | some txt => jsStartsWith txt "[Request interrupted by user"
          | none => false) then some .ending
  else none

def assistantEvents (bs : List Json) : List SEvent :=
  bs.filterMap (fun b => (assistantBlockClass b).1)

def assistantAdds (bs : List Json) : List String :=
  (bs.map (fun b => (assistantBlockClass b).2)).flatten

/-- Classified events of one line, together with the updated shutdown-id set. -/
def lineEvents (env : JsEnv) (sh : List String) (line : String) : List SEvent × List String :=
  if jsTrim line = "" then ([], sh)
  else
    match env.jsonParse line with
    | none => ([], sh)
    | some entry =>
      let eventType := (asString (entry.getF "type")).getD ""
      if jsContainsChar eventType '.' then ((dottedClass eventType (dottedContent entry)).toList, sh)
      else
        match parseChatHistoryEntry env entry with
        | none => ([], sh)
        | some p =>
          match p.type, p.content with
          | .assistant, .blocks bs => (assistantEvents bs, sh ++ assistantAdds bs)
          | .user, .blocks bs => (bs.filterMap (userBlockClass sh (isRejectionOf entry)), sh)
          | _, _ => ([], sh)

def sessionEventsFrom (env : JsEnv) (sh : List String) : List String → List SEvent
  | [] => []
  | l :: ls => (lineEvents env sh l).1 ++ sessionEventsFrom env (lineEvents env sh l).2 ls

/-- The session's classified event stream. -/
def sessionEvents (env : JsEnv) (lines : List String) : List SEvent :=
  sessionEventsFrom env [] lines

/-- One step of the last-ending-index scan: remember the running index of the
most recent ending event. -/
def lastEndingStep (acc : Option Nat × Nat) (e : SEvent) : Option Nat × Nat :=
  (if e = SEvent.ending then some acc.2 else acc.1, acc.2 + 1)

def lastEndingIdxAux (l : List SEvent) : Option Nat × Nat :=
  l.foldl lastEndingStep (none, 0)

/-- Index of the most recent ending event, if any. -/
def lastEndingIdx (l : List SEvent) : Option Nat :=
  (lastEndingIdxAux l).1

-- Context-consumption observation stream (the claim's reference definition).

/-- Context-relevant observations: a positive main-thread assistant input-token
total, or a compaction marker. -/
inductive CtxEvent where
  | total (n : Int)
  | compact
deriving DecidableEq

/-- The context tracker's transition for one observation. -/
def ctxStep (c : CtxState) : CtxEvent → CtxState
  | .total n =>
    let c :=
      if c.awaitingPostCompaction ∧ c.compactionPhases ≠ [] then
        { c with
          compactionPhases := setLastPost c.compactionPhases n
          awaitingPostCompaction := false }
      else c
    { c with lastMainAssistantInputTokens := n }
  | .compact =>
    { c with
      compactionPhases := c.compactionPhases ++ [(c.lastMainAssistantInputTokens, 0)]
      awaitingPostCompaction := true }

/-- Context-relevant observations of one parsed message. -/
def ctxEventsOfMsg (p : ParsedMessage) : List CtxEvent :=
  (if p.type = .assistant ∧ ¬p.isSidechain ∧ p.model ≠ some "<synthetic>" ∧ usageIn p > 0 then
    [.total (usageIn p)]
   else [])
  ++ (if p.isCompactSummary then [.compact] else [])

/-- Context-relevant observations of one line. -/
def ctxEventsOfLine (env : JsEnv) (line : String) : List CtxEvent :=
  if jsTrim line = "" then []
  else
    match env.jsonParse line with
    | none => []
    | some entry =>
      let eventType := (asString (entry.getF "type")).getD ""
      if jsContainsChar eventType '.' then []
      else
        match parseChatHistoryEntry env entry with
        | none => []
        | some p => ctxEventsOfMsg p

/-- The session's context observation stream. -/
def sessionCtxEvents (env : JsEnv) (lines : List String) : List CtxEvent :=
  (lines.map (ctxEventsOfLine env)).flatten

/-- The last observed total (0 when none was ever observed). -/
def lastTotalFrom (last : Int) : List CtxEvent → Int
  | [] => last
  | .total n :: rest => lastTotalFrom n rest
  | .compact :: rest => lastTotalFrom last rest

/-- First observed total of a phase segment: the first subsequent total, or 0
if the stream ends or another compaction intervenes first. -/
def firstTotalSeg : List CtxEvent → Int
  | [] => 0
  | .total n :: _ => n
  | .compact :: _ => 0

/-- The spec's `CompactionPhase` lifecycle: for every compaction marker a
phase `(preTokens, postTokens)` with `preTokens` the most recent total observed
before the marker and `postTokens` the first total observed after it (0 until
observed, left at 0 if another compaction intervenes first). -/
def specPhases (last : Int) : List CtxEvent → List (Int × Int)
  | [] => []
  | .total n :: rest => specPhases n rest
  | .compact :: rest => (last, firstTotalSeg rest) :: specPhases last rest

/-- Final value of the `awaitingPostCompaction` flag over a stream. -/
def finalAwait (a : Bool) : List CtxEvent → Bool
  | [] => a
  | .total _ :: rest => finalAwait false rest
  | .compact :: rest => finalAwait true rest

/-- The claim's middle-phase contributions:
phase `i` (2 ≤ i ≤ n) contributes `pre[i] − post[i−1]`. -/
def claimMiddles (prev : Int × Int) : List (Int × Int) → List Int
  | [] => []
  | q :: qs => (q.1 - prev.2) :: claimMiddles q qs

/-- The claim's reference contribution list: with no compactions a single
phase equal to the final total; otherwise phase 1 contributes `pre[1]`, middle
phases `pre[i] − post[i−1]`, and a trailing phase `finalTotal − post[n]` is
included iff `post[n] > 0`. -/
def claimContribs (finalTotal : Int) : List (Int × Int) → List Int
  | [] => [finalTotal]
  | p0 :: rest =>
    (p0.1 :: claimMiddles p0 rest)
      ++ (if (rest.getLastD p0).2 > 0 then [finalTotal - (rest.getLastD p0).2] else [])

/-- The claim's reference total. -/
def claimTotal (finalTotal : Int) (phases : List (Int × Int)) : Int :=
  (claimContribs finalTotal phases).sum

-- =============================================================================
-- Concrete instances used by witnesses and counterexamples
-- =============================================================================

/-- A concrete runtime environment for closed evaluations: the identity hash,
sanitizer and markdown renderer, a fixed clock, and no JSON/date parsing. -/
def demoEnv : JsEnv :=
  { jsonParse := fun _ => none
    parseDate := fun _ => none
    now := 0
    nowIso := "now"
    isoOf := fun n => toString n
    sha256hex := fun s => s
    sanitize := fun s => s
    isCommandOutput := fun _ => false
    isUserChunkMsg := fun _ => false
    mdPlain := fun s => s }

/-- A record that matches both the dotted event interpretation (content "hi")
and the flat role/content interpretation (content "flat content"), but not the
structured one (no uuid). -/
def c1record : Json :=
  Json.obj [("role", .str "user"), ("type", .str "user.message"),
    ("data", .obj [("content", .str "hi")]), ("content", .str "flat content")]

/-- An environment whose date parser knows two timestamps, "T1" ↦ 1000 and
"T2" ↦ 2000. -/
def twoDatesEnv : JsEnv :=
  { demoEnv with
    parseDate := fun s => if s = "T1" then some 1000 else if s = "T2" then some 2000 else none }

/-- A two-element flat message array given out of chronological order
(first entry at T2 = 2000, second at T1 = 1000). -/
def c2items : List Json :=
  [Json.obj [("role", .str "user"), ("content", .str "a"), ("timestamp", .str "T2"),
     ("uuid", .str "u1")],
   Json.obj [("role", .str "user"), ("content", .str "b"), ("timestamp", .str "T1"),
     ("uuid", .str "u2")]]

/-- A flat record with no uuid, id, or timestamp: its uuid seed falls back to
`Date.now()`. -/
def c5record : Json :=
  Json.obj [("role", .str "user"), ("content", .str "x")]

/-- A whole-document transcript with one request/response pair. -/
def c6doc : Json :=
  Json.obj [("requests", .arr
    [Json.obj [("prompt", .str "Q"), ("response", .str "A"), ("timestamp", .str "T1")]])]

/-- A line-indexed session: one dotted tool-start event line. -/
def toolStartRecord : Json :=
  Json.obj [("type", .str "tool.execution_start"),
    ("data", .obj [("toolName", .str "Read")]), ("id", .str "ev2"), ("timestamp", .str "t")]

def toolStartEnv : JsEnv :=
  { demoEnv with jsonParse := fun _ => some toolStartRecord }

/-- The searchable chunk of the claim's search example. -/
def quickEntry : SearchableEntry :=
  ⟨"The quick brown fox", "g", "user", "user", 0, "u"⟩

/-- A structured user record (uuid `w1`) carrying usage-free content. -/
def structuredUserRecord : Json :=
  Json.obj [("type", .str "user"), ("uuid", .str "w1"), ("timestamp", .str "T1"),
    ("message", .obj [("role", .str "user"), ("content", .str "hello")])]

/-- A structured assistant record (uuid `w2`) carrying a usage block. -/
def structuredAssistantRecord : Json :=
  Json.obj [("type", .str "assistant"), ("uuid", .str "w2"), ("timestamp", .str "T2"),
    ("message", .obj [("role", .str "assistant"), ("content", .str "ok"),
      ("usage", .obj [("input_tokens", .num 100), ("output_tokens", .num 50)])])]

/-- An environment that decodes every line to the flat record `c5record`. -/
def flatLineEnv : JsEnv :=
  { demoEnv with jsonParse := fun _ => some c5record }

/-- An environment that decodes the line "good" to a flat user record and
fails on every other line. -/
def lineTableEnv : JsEnv :=
  { demoEnv with
    jsonParse := fun s =>
      if s = "good" then some (Json.obj [("role", .str "user"), ("content", .str "x"),
        ("id", .str "g1")])
      else none }

/-- Per-message contribution of one usage counter (0 when usage is absent). -/
def tokenField (f : TokenUsage → Int) (m : ParsedMessage) : Int :=
  match m.usage with
  | none => 0
  | some u => f u

-- =============================================================================
-- Proofs — metrics aggregator (C8)
-- =============================================================================

theorem calcTokens_foldl (msgs : List ParsedMessage) :
    ∀ acc : Int × Int × Int × Int,
      msgs.foldl
        (fun acc m =>
          match m.usage with
          | none => acc
          | some u =>
            (acc.1 + u.input_tokens.getD 0,
             acc.2.1 + u.output_tokens.getD 0,
             acc.2.2.1 + u.cache_read_input_tokens.getD 0,
             acc.2.2.2 + u.cache_creation_input_tokens.getD 0))
        acc =
      (acc.1 + (msgs.map (tokenField (·.input_tokens.getD 0))).sum,
       acc.2.1 + (msgs.map (tokenField (·.output_tokens.getD 0))).sum,
       acc.2.2.1 + (msgs.map (tokenField (·.cache_read_input_tokens.getD 0))).sum,
       acc.2.2.2 + (msgs.map (tokenField (·.cache_creation_input_tokens.getD 0))).sum) := by
  induction msgs with
  | nil => intro acc; simp
  | cons m rest ih =>
    intro acc
    simp only [List.foldl_cons, List.map_cons, List.sum_cons]
    cases h : m.usage with
    | none => rw [ih]; simp [tokenField, h, add_assoc]
    | some u => rw [ih]; simp [tokenField, h, add_assoc]

theorem calcTokens_eq (msgs : List ParsedMessage) :
    calcTokens msgs =
      ((msgs.map (tokenField (·.input_tokens.getD 0))).sum,
       (msgs.map (tokenField (·.output_tokens.getD 0))).sum,
       (msgs.map (tokenField (·.cache_read_input_tokens.getD 0))).sum,
       (msgs.map (tokenField (·.cache_creation_input_tokens.getD 0))).sum) := by
  unfold calcTokens
  rw [calcTokens_foldl]
  simp

theorem calculateMetrics_inputTokens (msgs : List ParsedMessage) :
    (calculateMetrics msgs).inputTokens = (msgs.map (tokenField (·.input_tokens.getD 0))).sum := by
  unfold calculateMetrics
  split
  · next h =>
    rw [List.isEmpty_iff] at h
    subst h
    simp [EMPTY_METRICS]
  · simp [calcTokens_eq]

theorem calculateMetrics_outputTokens (msgs : List ParsedMessage) :
    (calculateMetrics msgs).outputTokens = (msgs.map (tokenField (·.output_tokens.getD 0))).sum := by
  unfold calculateMetrics
  split
  · next h =>
    rw [List.isEmpty_iff] at h
    subst h
    simp [EMPTY_METRICS]
  · simp [calcTokens_eq]

theorem calculateMetrics_cacheReadTokens (msgs : List ParsedMessage) :
    (calculateMetrics msgs).cacheReadTokens
      = (msgs.map (tokenField (·.cache_read_input_tokens.getD 0))).sum := by
  unfold calculateMetrics
  split
  · next h =>
    rw [List.isEmpty_iff] at h
    subst h
    simp [EMPTY_METRICS]
  · simp [calcTokens_eq]

theorem calculateMetrics_cacheCreationTokens (msgs : List ParsedMessage) :
    (calculateMetrics msgs).cacheCreationTokens
      = (msgs.map (tokenField (·.cache_creation_input_tokens.getD 0))).sum := by
  unfold calculateMetrics
  split
  · next h =>
    rw [List.isEmpty_iff] at h
    subst h
    simp [EMPTY_METRICS]
  · simp [calcTokens_eq]

theorem calculateMetrics_totalTokens (msgs : List ParsedMessage) :
    (calculateMetrics msgs).totalTokens
      = (calculateMetrics msgs).inputTokens + (calculateMetrics msgs).cacheCreationTokens
        + (calculateMetrics msgs).cacheReadTokens + (calculateMetrics msgs).outputTokens := by
  unfold calculateMetrics
  split
  · simp [EMPTY_METRICS]
  · simp

/-- C8: `calculateMetrics` is associative over token totals: splitting a
message sequence into two contiguous halves, each of the four token counters
(and the total) over the whole sequence equals the sum of the halves'
counters; the empty sequence yields the all-zero metrics object with duration
0, all counters 0, and no cost. -/
theorem C8_calculateMetrics_additive_and_empty :
    (∀ a b : List ParsedMessage,
      (calculateMetrics (a ++ b)).inputTokens
          = (calculateMetrics a).inputTokens + (calculateMetrics b).inputTokens
      ∧ (calculateMetrics (a ++ b)).outputTokens
          = (calculateMetrics a).outputTokens + (calculateMetrics b).outputTokens
      ∧ (calculateMetrics (a ++ b)).cacheReadTokens
          = (calculateMetrics a).cacheReadTokens + (calculateMetrics b).cacheReadTokens
      ∧ (calculateMetrics (a ++ b)).cacheCreationTokens
          = (calculateMetrics a).cacheCreationTokens + (calculateMetrics b).cacheCreationTokens
      ∧ (calculateMetrics (a ++ b)).totalTokens
          = (calculateMetrics a).totalTokens + (calculateMetrics b).totalTokens)
    ∧ calculateMetrics [] = EMPTY_METRICS
    ∧ EMPTY_METRICS.durationMs = 0 ∧ EMPTY_METRICS.inputTokens = 0
    ∧ EMPTY_METRICS.outputTokens = 0 ∧ EMPTY_METRICS.cacheReadTokens = 0
    ∧ EMPTY_METRICS.cacheCreationTokens = 0 ∧ EMPTY_METRICS.totalTokens = 0
    ∧ EMPTY_METRICS.messageCount = 0 ∧ EMPTY_METRICS.costUsd = none := by
  refine ⟨fun a b => ?_, rfl, rfl, rfl, rfl, rfl, rfl, rfl, rfl, rfl⟩
  refine ⟨?_, ?_, ?_, ?_, ?_⟩
  · simp [calculateMetrics_inputTokens]
  · simp [calculateMetrics_outputTokens]
  · simp [calculateMetrics_cacheReadTokens]
  · simp [calculateMetrics_cacheCreationTokens]
  · simp only [calculateMetrics_totalTokens, calculateMetrics_inputTokens,
      calculateMetrics_outputTokens, calculateMetrics_cacheReadTokens,
      calculateMetrics_cacheCreationTokens, List.map_append, List.sum_append]
    ring

-- =============================================================================
-- Proofs — error handling of invalid JSON lines (C10)
-- =============================================================================

/-- C10: for every non-blank input line that is not syntactically valid JSON
(the decoder fails), `parseJsonlLine` propagates the decode exception instead
of returning null; the per-line try/catch of `parseJsonlFile` makes such lines
non-fatal at the file level: they are skipped while every remaining line is
still parsed. -/
theorem C10_invalid_json_throws_and_is_skipped :
    (∀ (env : JsEnv) (line : String), jsTrim line ≠ "" → env.jsonParse line = none →
      parseJsonlLineE env line = .error ())
    ∧ (∀ (env : JsEnv) (pre post : List String) (bad : String), jsTrim bad ≠ "" →
        env.jsonParse bad = none →
        collectLineMessages env (pre ++ bad :: post) = collectLineMessages env (pre ++ post)) := by
  constructor
  · intro env line h1 h2
    unfold parseJsonlLineE
    rw [if_neg h1, h2]
  · intro env pre post bad h1 h2
    unfold collectLineMessages
    rw [List.foldl_append, List.foldl_append, List.foldl_cons]
    have hstep : ∀ acc : List ParsedMessage, collectLineStep env acc bad = acc := by
      intro acc
      unfold collectLineStep
      rw [if_neg h1]
      unfold parseJsonlLineE
      rw [if_neg h1, h2]
    rw [hstep]

/-- Witness for C10 at a concrete input: the invalid line "@" makes
`parseJsonlLine` throw, and inserting it into a file does not change the
collected messages. -/
theorem C10_witness :
    parseJsonlLineE lineTableEnv "@" = .error ()
    ∧ collectLineMessages lineTableEnv ["@", "good"] = collectLineMessages lineTableEnv ["good"] := by
  constructor
  · exact C10_invalid_json_throws_and_is_skipped.1 lineTableEnv "@" (by decide) rfl
  · exact C10_invalid_json_throws_and_is_skipped.2 lineTableEnv [] ["good"] "@" (by decide) rfl

-- =============================================================================
-- Proofs — parse priority order (C1)
-- =============================================================================

/-- C1 (counterexample): a record matching both the dotted-event and the flat
role/content interpretations is parsed by `parseJsonlLine` as a dotted event
(content "hi"), not — as the claim's priority order (structured, flat, dotted)
would have it — as a flat record (content "flat content"). -/
theorem C1_counterexample :
    plainContentOf (parseJsonlRecord demoEnv c1record) = some "hi"
    ∧ plainContentOf (specOrderParse demoEnv c1record) = some "flat content"
    ∧ parseJsonlRecord demoEnv c1record ≠ specOrderParse demoEnv c1record := by
  refine ⟨rfl, rfl, fun h => ?_⟩
  have h1 : plainContentOf (parseJsonlRecord demoEnv c1record) = some "hi" := rfl
  have h2 : plainContentOf (specOrderParse demoEnv c1record) = some "flat content" := rfl
  rw [h] at h1
  exact absurd (h1.symm.trans h2) (by decide)

/-- C1 (amended): `parseJsonlLine` attempts the interpretations in the fixed
priority order (1) structured event format, (2) dotted event-name format,
(3) flat role/content format, returns the first success, and returns null —
not an error — when a decoded record matches none of them. -/
theorem C1_priority_order (env : JsEnv) (j : Json) :
    (∀ m, parseChatHistoryEntry env j = some m → parseJsonlRecord env j = some m)
    ∧ (parseChatHistoryEntry env j = none →
        parseJsonlRecord env j =
          (match parseCopilotEventEntry env j with
           | some m => some m
           | none => parseCopilotMessageEntry env j))
    ∧ (parseChatHistoryEntry env j = none → parseCopilotEventEntry env j = none →
        parseCopilotMessageEntry env j = none → parseJsonlRecord env j = none)
    ∧ (∀ line, jsTrim line ≠ "" → env.jsonParse line = some j →
        parseJsonlLineE env line = .ok (parseJsonlRecord env j)) := by
  refine ⟨?_, ?_, ?_, ?_⟩
  · intro m h
    unfold parseJsonlRecord
    rw [h]
  · intro h
    unfold parseJsonlRecord
    rw [h]
  · intro h1 h2 h3
    unfold parseJsonlRecord
    rw [h1, h2, h3]
  · intro line h1 h2
    unfold parseJsonlLineE
    rw [if_neg h1, h2]

/-- Witness for C1 at concrete inputs: a flat-only record resolves to the flat
parser, a structured record resolves to the structured parser. -/
theorem C1_priority_order_witness :
    parseJsonlRecord demoEnv c5record = parseCopilotMessageEntry demoEnv c5record
    ∧ parseJsonlRecord demoEnv structuredUserRecord
        = parseChatHistoryEntry demoEnv structuredUserRecord
    ∧ parseJsonlLineE lineTableEnv "good" =
        .ok (parseJsonlRecord lineTableEnv (Json.obj [("role", .str "user"),
          ("content", .str "x"), ("id", .str "g1")])) := by
  refine ⟨?_, ?_, ?_⟩
  · exact (C1_priority_order demoEnv c5record).2.1 rfl
  · obtain ⟨m, hm⟩ : ∃ m, parseChatHistoryEntry demoEnv structuredUserRecord = some m := ⟨_, rfl⟩
    rw [hm]
    exact (C1_priority_order demoEnv structuredUserRecord).1 m hm
  · exact (C1_priority_order lineTableEnv _).2.2.2 "good" (by decide) rfl

-- =============================================================================
-- Proofs — deterministic identifiers (C5)
-- =============================================================================

/-- C5 (counterexample): a flat role/content record carrying no uuid, id, or
timestamp gets a uuid seed containing `Date.now()`, so two parses of the same
bytes at different clock values produce different identifiers. -/
theorem C5_counterexample :
    (parseCopilotMessageEntry { demoEnv with now := 100 } c5record).map (·.uuid)
        = some "copilot-user-100"
    ∧ (parseCopilotMessageEntry { demoEnv with now := 200 } c5record).map (·.uuid)
        = some "copilot-user-200"
    ∧ (parseCopilotMessageEntry { demoEnv with now := 100 } c5record).map (·.uuid)
        ≠ (parseCopilotMessageEntry { demoEnv with now := 200 } c5record).map (·.uuid) := by
  refine ⟨rfl, rfl, by decide⟩

/-- C5 (amended): identifiers for synthesized messages are hashes of
format-specific seed strings, never random.  For the dotted event format the
seed never depends on the clock, so the identifier is a deterministic function
of the record; for the flat role/content format the same holds whenever the
record carries a `uuid`, an `id`, or a timestamp string — a flat record with
none of the three seeds the hash with `Date.now()`. -/
theorem copilotMessageSeed_clock (e : JsEnv) (n1 n2 : Int) (j : Json) (role : CopilotRole)
    (h : (asString (j.getF "uuid")).isSome ∨ (asString (j.getF "id")).isSome
      ∨ (copilotTimestampRaw j).isSome) :
    copilotMessageSeed { e with now := n1 } j role (copilotTimestampRaw j)
      = copilotMessageSeed { e with now := n2 } j role (copilotTimestampRaw j) := by
  unfold copilotMessageSeed
  cases hu : asString (j.getF "uuid") with
  | some s => simp [hu, Option.orElse]
  | none =>
    cases hi : asString (j.getF "id") with
    | some s => simp [hu, hi, Option.orElse]
    | none =>
      cases ht : copilotTimestampRaw j with
      | some s => simp [hu, hi, ht, Option.orElse]
      | none => simp [hu, hi, ht] at h

theorem copilotEventSwitch_uuid_clock (e : JsEnv) (n1 n2 : Int) (eventType : String)
    (data : Json) (t1 t2 : Int) (eventId : String) :
    (copilotEventSwitch { e with now := n1 } eventType data t1 eventId).map (·.uuid)
      = (copilotEventSwitch { e with now := n2 } eventType data t2 eventId).map (·.uuid) := by
  unfold copilotEventSwitch
  repeat' split
  · simp [copilotSessionStartEvt, buildCopilotMessage, stableUuid]
  · simp only [copilotUserMessageEvt]
    split <;> simp [buildCopilotMessage, stableUuid]
  · simp only [copilotAssistantMessageEvt]
    split <;> simp [buildCopilotMessage, stableUuid]
  · simp only [copilotDeltaEvt]
    split <;> simp [buildCopilotMessage, stableUuid]
  · simp [copilotToolStartEvt, buildCopilotMessage, stableUuid]
  · simp [copilotToolCompleteEvt, buildCopilotMessage, stableUuid]
  · simp [copilotSessionErrorEvt, buildCopilotMessage, stableUuid]
  · simp [copilotShutdownEvt, buildCopilotMessage, stableUuid]
  · simp only [copilotGenericEvt]
    repeat' split
    all_goals simp_all [buildCopilotMessage, stableUuid]

theorem C5_uuid_determinism (e : JsEnv) (n1 n2 : Int) (j : Json) :
    ((parseCopilotEventEntry { e with now := n1 } j).map (·.uuid)
        = (parseCopilotEventEntry { e with now := n2 } j).map (·.uuid))
    ∧ ((asString (j.getF "uuid")).isSome ∨ (asString (j.getF "id")).isSome
          ∨ (copilotTimestampRaw j).isSome →
        (parseCopilotMessageEntry { e with now := n1 } j).map (·.uuid)
          = (parseCopilotMessageEntry { e with now := n2 } j).map (·.uuid)) := by
  constructor
  · unfold parseCopilotEventEntry
    repeat' split
    all_goals first
      | rfl
      | exact copilotEventSwitch_uuid_clock e n1 n2 _ _ _ _ _
  · intro h
    simp only [parseCopilotMessageEntry]
    repeat' split
    all_goals try rfl
    all_goals simp [buildCopilotMessage, stableUuid, copilotMessageSeed_clock e n1 n2 j _ h]

/-- Witness for C5 at a concrete input: a flat record carrying an `id` keeps
the same identifier across clock values. -/
theorem C5_uuid_determinism_witness :
    (parseCopilotMessageEntry { demoEnv with now := 100 }
        (Json.obj [("role", .str "user"), ("content", .str "x"), ("id", .str "g1")])).map (·.uuid)
      = (parseCopilotMessageEntry { demoEnv with now := 200 }
        (Json.obj [("role", .str "user"), ("content", .str "x"), ("id", .str "g1")])).map (·.uuid) :=
  (C5_uuid_determinism demoEnv 100 200 _).2 (by decide)

-- =============================================================================
-- Proofs — whole-document fallback (C6)
-- =============================================================================

/-- C6 (counterexample): a file whose name does not end in `.json` is NOT
dispatched to the whole-document fallback even when every line fails to parse;
the fallback would have produced two messages. -/
theorem C6_counterexample :
    collectLineMessages demoEnv ["@"] = []
    ∧ parseJsonlFile demoEnv "a.jsonl" ["@"] (some c6doc) = []
    ∧ (parseCopilotJsonFile demoEnv (some c6doc)).length = 2 := ⟨rfl, rfl, rfl⟩

/-- C6 (amended): the whole-document fallback fires exactly when line-delimited
parsing yields zero records AND the lower-cased file name ends in `.json`; the
fallback then dispatches on document shape: top-level array and `messages`
arrays are message arrays, `requests`/`turns` arrays are request/response
pairs, and otherwise a single message-shaped object is attempted. -/
theorem C6_fallback_dispatch (env : JsEnv) (filePath : String) (lines : List String)
    (doc : Option Json) :
    (collectLineMessages env lines = [] → jsEndsWith (jsToLower filePath) ".json" = true →
      parseJsonlFile env filePath lines doc = parseCopilotJsonFile env doc)
    ∧ ((collectLineMessages env lines ≠ [] ∨ jsEndsWith (jsToLower filePath) ".json" = false) →
      parseJsonlFile env filePath lines doc
        = consolidateCopilotDeltas (collectLineMessages env lines))
    ∧ (∀ items, parseCopilotTranscript env (.arr items) = parseCopilotMessageArray env items)
    ∧ (∀ fields ms, (Json.obj fields).getF "messages" = some (.arr ms) →
        parseCopilotTranscript env (.obj fields) = parseCopilotMessageArray env ms)
    ∧ (∀ fields rs, (Json.obj fields).getF "messages" = none →
        (Json.obj fields).getF "requests" = some (.arr rs) →
        parseCopilotTranscript env (.obj fields) = parseCopilotRequestArray env rs)
    ∧ (∀ fields ts, (Json.obj fields).getF "messages" = none →
        (Json.obj fields).getF "requests" = none →
        (Json.obj fields).getF "turns" = some (.arr ts) →
        parseCopilotTranscript env (.obj fields) = parseCopilotRequestArray env ts)
    ∧ (∀ fields, (Json.obj fields).getF "messages" = none →
        (Json.obj fields).getF "requests" = none →
        (Json.obj fields).getF "turns" = none →
        parseCopilotTranscript env (.obj fields)
          = (match parseCopilotMessageEntry env (.obj fields) with
             | some m => [m]
             | none => [])) := by
  refine ⟨?_, ?_, ?_, ?_, ?_, ?_, ?_⟩
  · intro h1 h2
    unfold parseJsonlFile
    rw [if_pos]
    exact ⟨List.isEmpty_iff.mpr h1, h2⟩
  · intro h
    unfold parseJsonlFile
    rw [if_neg]
    intro hc
    rcases h with h | h
    · exact h (List.isEmpty_iff.mp hc.1)
    · rw [hc.2] at h
      cases h
  · intro items
    rfl
  · intro fields ms h
    simp only [parseCopilotTranscript, h]
  · intro fields rs h1 h2
    simp only [parseCopilotTranscript, h1, h2]
  · intro fields ts h1 h2 h3
    simp only [parseCopilotTranscript, h1, h2, h3]
  · intro fields h1 h2 h3
    simp only [parseCopilotTranscript, h1, h2, h3]

/-- Witness for C6 at concrete inputs: a `.json` file with only unparsable
lines falls back to the whole document, which dispatches a `requests` array to
the request/turn parser. -/
theorem C6_fallback_dispatch_witness :
    parseJsonlFile demoEnv "b.json" ["@"] (some c6doc) = parseCopilotJsonFile demoEnv (some c6doc)
    ∧ parseCopilotTranscript demoEnv c6doc = parseCopilotRequestArray demoEnv
        [Json.obj [("prompt", .str "Q"), ("response", .str "A"), ("timestamp", .str "T1")]] := by
  constructor
  · exact (C6_fallback_dispatch demoEnv "b.json" ["@"] (some c6doc)).1 rfl rfl
  · exact (C6_fallback_dispatch demoEnv "b.json" ["@"] (some c6doc)).2.2.2.2.1 _ _ rfl rfl

-- =============================================================================
-- Proofs — parent-chain synthesis (C2)
-- =============================================================================

theorem assignParentUuidsAux_map_uuid (ms : List ParsedMessage) :
    ∀ prev, (assignParentUuidsAux prev ms).map (·.uuid) = ms.map (·.uuid) := by
  induction ms with
  | nil => intro prev; rfl
  | cons m rest ih => intro prev; simp [assignParentUuidsAux, ih]

theorem assignParentUuidsAux_map_timestamp (ms : List ParsedMessage) :
    ∀ prev, (assignParentUuidsAux prev ms).map (·.timestamp) = ms.map (·.timestamp) := by
  induction ms with
  | nil => intro prev; rfl
  | cons m rest ih => intro prev; simp [assignParentUuidsAux, ih]

theorem assignParentUuidsAux_usage (ms : List ParsedMessage) :
    ∀ prev m, m ∈ assignParentUuidsAux prev ms → ∃ m0 ∈ ms, m.usage = m0.usage := by
  induction ms with
  | nil => intro prev m h; cases h
  | cons m0 rest ih =>
    intro prev m h
    rw [assignParentUuidsAux] at h
    rcases List.mem_cons.mp h with h | h
    · exact ⟨m0, List.mem_cons_self .., by rw [h]⟩
    · obtain ⟨m1, hm1, he⟩ := ih (some m0.uuid) m h
      exact ⟨m1, List.mem_cons_of_mem _ hm1, he⟩

theorem assignParentUuidsAux_chain (ms : List ParsedMessage) :
    ∀ prev, (assignParentUuidsAux prev ms).Chain' (fun a b => b.parentUuid = some a.uuid) := by
  induction ms with
  | nil => intro prev; simp [assignParentUuidsAux]
  | cons m rest ih =>
    intro prev
    cases rest with
    | nil => simp [assignParentUuidsAux]
    | cons m2 r2 =>
      rw [assignParentUuidsAux, assignParentUuidsAux]
      refine List.Chain'.cons rfl ?_
      have := ih (some m.uuid)
      rw [assignParentUuidsAux] at this
      exact this

theorem assignParentUuidsAux_head (prev : Option String) (ms : List ParsedMessage) :
    ∀ m, (assignParentUuidsAux prev ms).head? = some m → m.parentUuid = prev := by
  cases ms with
  | nil => intro m h; cases h
  | cons m0 rest =>
    intro m h
    rw [assignParentUuidsAux] at h
    rw [List.head?_cons] at h
    cases h
    rfl

theorem assignParentUuids_sorted (l : List ParsedMessage) (h : List.Sorted tsLE l) :
    List.Sorted tsLE (assignParentUuids l) := by
  have hmap : (assignParentUuids l).map tsVal = l.map tsVal := by
    have h1 : ∀ xs : List ParsedMessage, xs.map tsVal
        = (xs.map (·.timestamp)).map (fun o => o.getD 0) := by
      intro xs
      rw [List.map_map]
      rfl
    rw [h1, h1, assignParentUuids, assignParentUuidsAux_map_timestamp]
  have h2 : List.Pairwise (fun a b : Int => a ≤ b) ((assignParentUuids l).map tsVal) := by
    rw [hmap]
    exact List.Pairwise.map tsVal (fun a b hab => hab) h
  exact List.Pairwise.of_map tsVal (fun a b hab => hab) h2

/-- C2 (amended): `assignParentUuids` chains each message to its immediate
predecessor in the order the batch is given (first parent null), preserving
ids and timestamps.  Request/turn transcripts are sorted by timestamp before
chaining, so their output is both timestamp-sorted and parent-chained — for
them sorting by timestamp and walking `parentId` reconstructs the order.
Message arrays (and single-object/delta-consolidation paths) are chained in
input order without sorting, so the timestamp-walk property holds for them
only when the batch was already chronological. -/
theorem C2_parent_chain_synthesis :
    (∀ ms : List ParsedMessage,
      (assignParentUuids ms).Chain' (fun a b => b.parentUuid = some a.uuid)
      ∧ (∀ m, (assignParentUuids ms).head? = some m → m.parentUuid = none)
      ∧ (assignParentUuids ms).map (·.uuid) = ms.map (·.uuid)
      ∧ (assignParentUuids ms).map (·.timestamp) = ms.map (·.timestamp))
    ∧ (∀ (env : JsEnv) (items : List Json),
        List.Sorted tsLE (parseCopilotRequestArray env items)
        ∧ (parseCopilotRequestArray env items).Chain' (fun a b => b.parentUuid = some a.uuid)
        ∧ ∀ m, (parseCopilotRequestArray env items).head? = some m → m.parentUuid = none)
    ∧ (∀ (env : JsEnv) (items : List Json),
        (parseCopilotMessageArray env items).Chain' (fun a b => b.parentUuid = some a.uuid)
        ∧ ∀ m, (parseCopilotMessageArray env items).head? = some m → m.parentUuid = none) := by
  refine ⟨fun ms => ⟨?_, ?_, ?_, ?_⟩, fun env items => ⟨?_, ?_, ?_⟩, fun env items => ⟨?_, ?_⟩⟩
  · exact assignParentUuidsAux_chain ms none
  · exact assignParentUuidsAux_head none ms
  · exact assignParentUuidsAux_map_uuid ms none
  · exact assignParentUuidsAux_map_timestamp ms none
  · exact assignParentUuids_sorted _ (List.sorted_insertionSort tsLE _)
  · exact assignParentUuidsAux_chain _ none
  · exact assignParentUuidsAux_head none _
  · exact assignParentUuidsAux_chain _ none
  · exact assignParentUuidsAux_head none _

/-- Witness for C2 at a concrete input: the parent chain of the concrete
two-element message array links the second message to the first. -/
theorem C2_parent_chain_synthesis_witness :
    (parseCopilotMessageArray twoDatesEnv c2items).Chain' (fun a b => b.parentUuid = some a.uuid)
    ∧ (parseCopilotMessageArray twoDatesEnv c2items).map (fun m => m.parentUuid)
        = [none, some "u1"] :=
  ⟨(C2_parent_chain_synthesis.2.2 twoDatesEnv c2items).1, rfl⟩

/-- C2 (counterexample): a two-element flat message array given out of
chronological order is chained in file order, so sorting the output by
timestamp and walking `parentId` does not reconstruct the sorted order: the
chronologically-first message carries a non-null parent. -/
theorem C2_counterexample :
    (parseCopilotMessageArray twoDatesEnv c2items).map (fun m => (m.parentUuid, tsVal m))
      = [(none, 2000), (some "u1", 1000)]
    ∧ ¬ tsChained (parseCopilotMessageArray twoDatesEnv c2items) := by
  refine ⟨rfl, fun h => ?_⟩
  have h1 : ((List.insertionSort tsLE (parseCopilotMessageArray twoDatesEnv c2items)).head?).map
      (·.parentUuid) = some (some "u1") := rfl
  cases hh : (List.insertionSort tsLE (parseCopilotMessageArray twoDatesEnv c2items)).head? with
  | none => rw [hh] at h1; cases h1
  | some m =>
    have hp := h.2 m hh
    rw [hh] at h1
    simp only [Option.map_some'] at h1
    rw [hp] at h1
    cases h1

-- =============================================================================
-- Proofs — search context windows (C7)
-- =============================================================================

theorem collectLoop_mem (entry : SearchableEntry) (query plain lower : String)
    (maxResults : Nat) (projectId sessionId : String) (sessionTitle : Option String) :
    ∀ (ms : List Nat) (acc : List SearchResult) (r : SearchResult),
      r ∈ collectLoop entry query plain lower maxResults projectId sessionId sessionTitle acc ms →
      r ∈ acc ∨ ∃ mIdx,
        r = mkSearchResult entry query plain lower projectId sessionId sessionTitle mIdx := by
  intro ms
  induction ms with
  | nil => intro acc r h; exact Or.inl h
  | cons mIdx rest ih =>
    intro acc r h
    rw [collectLoop] at h
    split at h
    · exact Or.inl h
    · rcases ih _ r h with h2 | h2
      · rcases List.mem_append.mp h2 with h3 | h3
        · exact Or.inl h3
        · exact Or.inr ⟨mIdx, List.mem_singleton.mp h3⟩
      · exact Or.inr h2

theorem mkSearchResult_context (entry : SearchableEntry) (query plain lower : String)
    (projectId sessionId : String) (sessionTitle : Option String) (mIdx : Nat) :
    (mkSearchResult entry query plain lower projectId sessionId sessionTitle mIdx).context
      = contextWindow plain query
          (mkSearchResult entry query plain lower projectId sessionId sessionTitle mIdx).matchStartOffset := by
  simp only [mkSearchResult, contextWindow, Nat.zero_max]

/-- C7: every result pushed by `collectMatchesForEntry` carries as context the
plain-text slice from `max(0, offset − 50)` to `min(len, offset + qlen + 50)`,
ellipsis-prefixed exactly when the start was clamped above 0 and suffixed
exactly when the end was clamped below the length; on chunk text
"The quick brown fox" with query "quick", the match text is "quick" at
offset 4. -/
theorem C7_search_context_window :
    (∀ (env : JsEnv) (entry : SearchableEntry) (query : String) (maxResults : Nat)
        (projectId sessionId : String) (sessionTitle : Option String) (acc : List SearchResult)
        (r : SearchResult),
      r ∈ collectMatchesForEntry env entry query acc maxResults projectId sessionId sessionTitle →
      r ∈ acc ∨ r.context = contextWindow (env.mdPlain entry.text) query r.matchStartOffset)
    ∧ ((collectMatchesForEntry demoEnv quickEntry "quick" [] 50 "p" "s" none).map
        (fun r => (r.matchedText, r.matchStartOffset)) = [("quick", 4)]) := by
  constructor
  · intro env entry query maxResults projectId sessionId sessionTitle acc r h
    simp only [collectMatchesForEntry] at h
    split at h
    · exact Or.inl h
    · rcases collectLoop_mem entry query (env.mdPlain entry.text)
          (jsToLower (env.mdPlain entry.text)) maxResults projectId sessionId sessionTitle
          _ _ r h with h2 | h2
      · exact Or.inl h2
      · obtain ⟨mIdx, rfl⟩ := h2
        exact Or.inr (mkSearchResult_context ..)
  · rfl

/-- Witness for C7 at the claim's concrete example. -/
theorem C7_search_context_window_witness :
    mkSearchResult quickEntry "quick" "The quick brown fox" "the quick brown fox" "p" "s" none 0
      ∈ collectMatchesForEntry demoEnv quickEntry "quick" [] 50 "p" "s" none
    ∧ (mkSearchResult quickEntry "quick" "The quick brown fox" "the quick brown fox"
          "p" "s" none 0).context
        = contextWindow "The quick brown fox" "quick"
            (mkSearchResult quickEntry "quick" "The quick brown fox" "the quick brown fox"
              "p" "s" none 0).matchStartOffset := by
  have hm : collectMatchesForEntry demoEnv quickEntry "quick" [] 50 "p" "s" none
      = [mkSearchResult quickEntry "quick" "The quick brown fox" "the quick brown fox"
          "p" "s" none 0] := rfl
  have hmem : mkSearchResult quickEntry "quick" "The quick brown fox" "the quick brown fox"
      "p" "s" none 0 ∈ collectMatchesForEntry demoEnv quickEntry "quick" [] 50 "p" "s" none := by
    rw [hm]
    exact List.mem_singleton.mpr rfl
  rcases C7_search_context_window.1 demoEnv quickEntry "quick" 50 "p" "s" none [] _ hmem with h | h
  · cases h
  · exact ⟨hmem, h⟩

-- =============================================================================
-- Proofs — copilot-synthesized messages carry no usage (C9)
-- =============================================================================

theorem parseCopilotMessageEntry_usage (env : JsEnv) (j : Json) :
    ∀ m, parseCopilotMessageEntry env j = some m → m.usage = none := by
  intro m h
  simp only [parseCopilotMessageEntry] at h
  split at h
  · cases h
  · split at h
    · cases h
    · split at h
      · cases h
      · cases h
        rfl

theorem copilotEventSwitch_usage (env : JsEnv) (eventType : String) (data : Json)
    (t : Int) (eid : String) :
    ∀ m, copilotEventSwitch env eventType data t eid = some m → m.usage = none := by
  intro m h
  unfold copilotEventSwitch at h
  repeat' split at h
  all_goals
    simp only [copilotSessionStartEvt, copilotUserMessageEvt, copilotAssistantMessageEvt,
      copilotDeltaEvt, copilotToolStartEvt, copilotToolCompleteEvt, copilotSessionErrorEvt,
      copilotShutdownEvt, copilotGenericEvt] at h
  all_goals repeat' split at h
  all_goals cases h <;> rfl

theorem parseCopilotEventEntry_usage (env : JsEnv) (j : Json) :
    ∀ m, parseCopilotEventEntry env j = some m → m.usage = none := by
  intro m h
  simp only [parseCopilotEventEntry] at h
  split at h
  · cases h
  · split at h
    · cases h
    · split at h
      · cases h
      · split at h
        · cases h
        · split at h
          · cases h
          · exact copilotEventSwitch_usage env _ _ _ _ m h

theorem parseCopilotRequestArrayAux_usage (env : JsEnv) (items : List Json) :
    ∀ idx m, m ∈ parseCopilotRequestArrayAux env idx items → m.usage = none := by
  induction items with
  | nil => intro idx m h; cases h
  | cons item rest ih =>
    intro idx m h
    rw [parseCopilotRequestArrayAux] at h
    rcases List.mem_append.mp h with h | h
    · simp only [parseCopilotRequestItem] at h
      split at h
      · cases h
      · rcases List.mem_append.mp h with h | h <;>
        · repeat' split at h
          all_goals first
            | (rw [List.mem_singleton] at h; subst h; rfl)
            | cases h
    · exact ih (idx + 1) m h

theorem parseCopilotTranscript_usage (env : JsEnv) (d : Json) :
    ∀ m ∈ parseCopilotTranscript env d, m.usage = none := by
  have harr : ∀ items : List Json, ∀ m ∈ parseCopilotMessageArray env items, m.usage = none := by
    intro items m h
    obtain ⟨m0, hm0, he⟩ := assignParentUuidsAux_usage _ none m h
    rw [he]
    obtain ⟨a, _, ha⟩ := List.mem_filterMap.mp hm0
    exact parseCopilotMessageEntry_usage env a m0 ha
  have hreq : ∀ items : List Json, ∀ m ∈ parseCopilotRequestArray env items, m.usage = none := by
    intro items m h
    obtain ⟨m0, hm0, he⟩ := assignParentUuidsAux_usage _ none m h
    rw [he]
    have hperm := List.perm_insertionSort tsLE (parseCopilotRequestArrayAux env 0 items)
    exact parseCopilotRequestArrayAux_usage env items 0 m0 (hperm.mem_iff.mp hm0)
  intro m h
  unfold parseCopilotTranscript at h
  split at h
  · exact harr _ m h
  · split at h
    · exact harr _ m h
    · split at h
      · exact hreq _ m h
      · split at h
        · exact hreq _ m h
        · split at h
          · next m0 hm0 =>
            rw [List.mem_singleton] at h
            subst h
            exact parseCopilotMessageEntry_usage env _ m hm0
          · cases h
  · cases h

theorem parseJsonlRecord_usage (env : JsEnv) (j : Json)
    (hs : parseChatHistoryEntry env j = none) :
    ∀ m, parseJsonlRecord env j = some m → m.usage = none := by
  intro m h
  unfold parseJsonlRecord at h
  rw [hs] at h
  cases he : parseCopilotEventEntry env j with
  | some m2 =>
    rw [he] at h
    cases h
    exact parseCopilotEventEntry_usage env j _ he
  | none =>
    rw [he] at h
    exact parseCopilotMessageEntry_usage env j m h

theorem collectLineMessages_usage_aux (env : JsEnv)
    (hline : ∀ line j, env.jsonParse line = some j → parseChatHistoryEntry env j = none)
    (lines : List String) :
    ∀ acc, (∀ m ∈ acc, m.usage = none) →
      ∀ m ∈ lines.foldl (collectLineStep env) acc, m.usage = none := by
  induction lines with
  | nil => intro acc hacc m hm; exact hacc m hm
  | cons l rest ih =>
    intro acc hacc m hm
    rw [List.foldl_cons] at hm
    refine ih _ ?_ m hm
    intro m2 hm2
    unfold collectLineStep at hm2
    split at hm2
    · exact hacc m2 hm2
    · next hb =>
      cases he : parseJsonlLineE env l with
      | error e => rw [he] at hm2; exact hacc m2 hm2
      | ok o =>
        cases o with
        | none => rw [he] at hm2; exact hacc m2 hm2
        | some mm =>
          rw [he] at hm2
          rcases List.mem_append.mp hm2 with h | h
          · exact hacc m2 h
          · rw [List.mem_singleton] at h
            subst h
            unfold parseJsonlLineE at he
            rw [if_neg hb] at he
            cases hj : env.jsonParse l with
            | none => rw [hj] at he; cases he
            | some j =>
              rw [hj] at he
              injection he with he2
              exact parseJsonlRecord_usage env j (hline l j hj) m2 he2

theorem parseJsonlFile_usage (env : JsEnv) (name : String) (lines : List String)
    (doc : Option Json)
    (hline : ∀ line j, env.jsonParse line = some j → parseChatHistoryEntry env j = none) :
    ∀ m ∈ parseJsonlFile env name lines doc, m.usage = none := by
  intro m h
  have hcoll : ∀ m2 ∈ collectLineMessages env lines, m2.usage = none :=
    collectLineMessages_usage_aux env hline lines [] (by intro x hx; cases hx)
  simp only [parseJsonlFile] at h
  split at h
  · unfold parseCopilotJsonFile at h
    split at h
    · cases h
    · exact parseCopilotTranscript_usage env _ m h
  · unfold consolidateCopilotDeltas at h
    split at h
    · obtain ⟨m0, hm0, he⟩ := assignParentUuidsAux_usage _ none m h
      rw [he]
      exact hcoll m0 hm0
    · exact hcoll m h

theorem sum_tokenField_zero (f : TokenUsage → Int) (msgs : List ParsedMessage)
    (h : ∀ m ∈ msgs, m.usage = none) :
    (msgs.map (tokenField f)).sum = 0 := by
  apply List.sum_eq_zero
  intro x hx
  obtain ⟨m, hm, he⟩ := List.mem_map.mp hx
  rw [← he]
  unfold tokenField
  rw [h m hm]

theorem analyzeLine_ctx_unstructured (env : JsEnv) (st : AnalyzerState) (line : String)
    (hline : ∀ j, env.jsonParse line = some j → parseChatHistoryEntry env j = none) :
    (analyzeLine env st line).ctx = st.ctx := by
  simp only [analyzeLine]
  split
  · rfl
  · split
    · rfl
    · next entry heq =>
      split
      · rfl
      · rw [hline entry heq]
        rfl

theorem analyzeFold_ctx_unstructured (env : JsEnv) (lines : List String)
    (hline : ∀ line j, env.jsonParse line = some j → parseChatHistoryEntry env j = none) :
    ∀ st, (lines.foldl (analyzeLine env) st).ctx = st.ctx := by
  induction lines with
  | nil => intro st; rfl
  | cons l rest ih =>
    intro st
    rw [List.foldl_cons, ih]
    exact analyzeLine_ctx_unstructured env st l (hline l)

/-- C9: every message built by `buildCopilotMessage` (flat role/content,
dotted event-name, and whole-document transcript paths) has `usage`
undefined and `isSidechain`/`isMeta`/`isCompactSummary` false; hence a
session parsed solely from those formats (every decoded record fails the
structured parse) yields zero for all four token counters of
`calculateMetrics`, and `analyzeSessionFileMetadata` never opens a compaction
phase (no compaction count, no context consumption). -/
theorem C9_copilot_messages_no_usage :
    (∀ (env : JsEnv) (ty : CopilotRole) (content : MessageContent) (ts : Int) (seed : String)
        (cwd model : Option String),
      (buildCopilotMessage env ty content ts seed cwd model).usage = none
      ∧ (buildCopilotMessage env ty content ts seed cwd model).isSidechain = false
      ∧ (buildCopilotMessage env ty content ts seed cwd model).isMeta = false
      ∧ (buildCopilotMessage env ty content ts seed cwd model).isCompactSummary = false)
    ∧ (∀ env j m, parseCopilotMessageEntry env j = some m → m.usage = none)
    ∧ (∀ env j m, parseCopilotEventEntry env j = some m → m.usage = none)
    ∧ (∀ env d, ∀ m ∈ parseCopilotTranscript env d, m.usage = none)
    ∧ (∀ msgs : List ParsedMessage, (∀ m ∈ msgs, m.usage = none) →
        (calculateMetrics msgs).inputTokens = 0 ∧ (calculateMetrics msgs).outputTokens = 0
        ∧ (calculateMetrics msgs).cacheReadTokens = 0
        ∧ (calculateMetrics msgs).cacheCreationTokens = 0
        ∧ (calculateMetrics msgs).totalTokens = 0)
    ∧ (∀ (env : JsEnv) (name : String) (lines : List String) (doc : Option Json),
        (∀ line j, env.jsonParse line = some j → parseChatHistoryEntry env j = none) →
        (calculateMetrics (parseJsonlFile env name lines doc)).totalTokens = 0)
    ∧ (∀ (env : JsEnv) (lines : List String),
        (∀ line j, env.jsonParse line = some j → parseChatHistoryEntry env j = none) →
        (analyzeSessionFileMetadata env lines).compactionCount = none
        ∧ (analyzeSessionFileMetadata env lines).contextConsumption = none) := by
  have hzero : ∀ msgs : List ParsedMessage, (∀ m ∈ msgs, m.usage = none) →
      (calculateMetrics msgs).inputTokens = 0 ∧ (calculateMetrics msgs).outputTokens = 0
      ∧ (calculateMetrics msgs).cacheReadTokens = 0
      ∧ (calculateMetrics msgs).cacheCreationTokens = 0
      ∧ (calculateMetrics msgs).totalTokens = 0 := by
    intro msgs h
    have h1 := calculateMetrics_inputTokens msgs
    have h2 := calculateMetrics_outputTokens msgs
    have h3 := calculateMetrics_cacheReadTokens msgs
    have h4 := calculateMetrics_cacheCreationTokens msgs
    have h5 := calculateMetrics_totalTokens msgs
    rw [sum_tokenField_zero _ _ h] at h1 h2 h3 h4
    refine ⟨h1, h2, h3, h4, ?_⟩
    rw [h5, h1, h2, h3, h4]
    ring
  refine ⟨fun env ty c ts s cw mo => ⟨rfl, rfl, rfl, rfl⟩,
    parseCopilotMessageEntry_usage, parseCopilotEventEntry_usage,
    parseCopilotTranscript_usage, hzero, ?_, ?_⟩
  · intro env name lines doc hline
    exact (hzero _ (parseJsonlFile_usage env name lines doc hline)).2.2.2.2
  · intro env lines hline
    have hctx : (lines.foldl (analyzeLine env) initAnalyzerState).ctx = initAnalyzerState.ctx :=
      analyzeFold_ctx_unstructured env lines hline initAnalyzerState
    have hproj1 : (analyzeSessionFileMetadata env lines).compactionCount
        = (if (lines.foldl (analyzeLine env) initAnalyzerState).ctx.compactionPhases.length > 0
           then some (lines.foldl (analyzeLine env) initAnalyzerState).ctx.compactionPhases.length
           else none) := rfl
    have hproj2 : (analyzeSessionFileMetadata env lines).contextConsumption
        = (ctxResult (lines.foldl (analyzeLine env) initAnalyzerState).ctx).1 := rfl
    rw [hproj1, hproj2, hctx]
    exact ⟨rfl, rfl⟩

/-- Witness for C9 at a concrete input: a file whose every line is a flat
role/content record produces zero total tokens and no compaction phases. -/
theorem C9_copilot_messages_no_usage_witness :
    (calculateMetrics (parseJsonlFile flatLineEnv "a.jsonl" ["x"] none)).totalTokens = 0
    ∧ (analyzeSessionFileMetadata flatLineEnv ["x"]).compactionCount = none := by
  have h : ∀ line j, flatLineEnv.jsonParse line = some j →
      parseChatHistoryEntry flatLineEnv j = none := by
    intro line j hj
    cases hj
    rfl
  exact ⟨C9_copilot_messages_no_usage.2.2.2.2.2.1 flatLineEnv "a.jsonl" ["x"] none h,
    (C9_copilot_messages_no_usage.2.2.2.2.2.2 flatLineEnv ["x"] h).1⟩

-- =============================================================================
-- Proofs — liveness state machine (C4): per-block correspondence
-- =============================================================================

theorem dottedLive_class (eventType : String) (c : Option String) (s : LiveState) :
    dottedLive eventType c s
      = (match dottedClass eventType c with
         | some e => applyEvent s e
         | none => s) := by
  simp only [dottedLive, dottedClass]
  split
  · rfl
  · split <;> rfl

theorem assistantBlockStep_class (b : Json) (s : LiveState) (sh : List String) :
    assistantBlockStep b (s, sh)
      = ((match (assistantBlockClass b).1 with
          | some e => applyEvent s e
          | none => s),
         sh ++ (assistantBlockClass b).2) := by
  simp only [assistantBlockStep, assistantBlockClass]
  repeat' split
  all_goals (try (rename_i e he; cases he))
  all_goals simp_all [applyEvent]

theorem userBlockStep_class (r : Bool) (b : Json) (s : LiveState) (sh : List String) :
    userBlockStep r b (s, sh)
      = ((match userBlockClass sh r b with
          | some e => applyEvent s e
          | none => s),
         sh) := by
  simp only [userBlockStep, userBlockClass]
  repeat' split
  all_goals (try (rename_i e he; cases he))
  all_goals simp_all [applyEvent]

theorem assistantBlocks_fold (bs : List Json) :
    ∀ (s : LiveState) (sh : List String),
      bs.foldl (fun acc b => assistantBlockStep b acc) (s, sh)
        = ((assistantEvents bs).foldl applyEvent s, sh ++ assistantAdds bs) := by
  induction bs with
  | nil => intro s sh; simp [assistantEvents, assistantAdds]
  | cons b bs ih =>
    intro s sh
    rw [List.foldl_cons, assistantBlockStep_class, ih]
    have hev : assistantEvents (b :: bs)
        = ((assistantBlockClass b).1).toList ++ assistantEvents bs := by
      simp only [assistantEvents, List.filterMap_cons]
      cases (assistantBlockClass b).1 <;> simp
    have had : assistantAdds (b :: bs) = (assistantBlockClass b).2 ++ assistantAdds bs := by
      simp [assistantAdds]
    rw [hev, had, List.foldl_append]
    cases (assistantBlockClass b).1 <;> simp [applyEvent]

theorem userBlocks_fold (r : Bool) (shArg : List String) (bs : List Json) :
    ∀ (s : LiveState),
      bs.foldl (fun acc b => userBlockStep r b acc) (s, shArg)
        = ((bs.filterMap (userBlockClass shArg r)).foldl applyEvent s, shArg) := by
  induction bs with
  | nil => intro s; simp
  | cons b bs ih =>
    intro s
    rw [List.foldl_cons, userBlockStep_class, ih]
    simp only [List.filterMap_cons]
    cases userBlockClass shArg r b <;> simp

theorem liveSteps_class (entry : Json) (p : ParsedMessage) (s : LiveState) (sh : List String) :
    liveSteps entry p (s, sh)
      = (match p.type, p.content with
         | .assistant, .blocks bs => ((assistantEvents bs).foldl applyEvent s, sh ++ assistantAdds bs)
         | .user, .blocks bs =>
            ((bs.filterMap (userBlockClass sh (isRejectionOf entry))).foldl applyEvent s, sh)
         | _, _ => (s, sh)) := by
  unfold liveSteps
  cases p.type <;> cases p.content <;>
    simp only [assistantBlocks_fold, userBlocks_fold]

-- =============================================================================
-- Proofs — liveness state machine (C4): per-line and per-session correspondence
-- =============================================================================

theorem analyzeLine_live (env : JsEnv) (st : AnalyzerState) (line : String) :
    ((analyzeLine env st line).live, (analyzeLine env st line).shutdownToolIds)
      = ((lineEvents env st.shutdownToolIds line).1.foldl applyEvent st.live,
         (lineEvents env st.shutdownToolIds line).2) := by
  simp only [analyzeLine, lineEvents]
  split
  · rfl
  · split
    · rfl
    · next entry heq =>
      split
      · -- dotted-event branch
        have h1 : (dottedStep env entry ((asString (entry.getF "type")).getD "") st).live
            = dottedLive ((asString (entry.getF "type")).getD "") (dottedContent entry) st.live :=
          rfl
        have h2 : (dottedStep env entry ((asString (entry.getF "type")).getD "") st).shutdownToolIds
            = st.shutdownToolIds := rfl
        rw [h1, h2, dottedLive_class]
        cases dottedClass ((asString (entry.getF "type")).getD "") (dottedContent entry) <;>
          simp [applyEvent]
      · split
        · rfl
        · next p hp =>
          have h1 : (parsedStep env entry p st).live
              = (liveSteps entry p (st.live, st.shutdownToolIds)).1 := rfl
          have h2 : (parsedStep env entry p st).shutdownToolIds
              = (liveSteps entry p (st.live, st.shutdownToolIds)).2 := rfl
          rw [h1, h2, liveSteps_class]
          cases p.type <;> cases p.content <;> rfl

theorem analyzeFold_live (env : JsEnv) (lines : List String) :
    ∀ st : AnalyzerState,
      (lines.foldl (analyzeLine env) st).live
        = (sessionEventsFrom env st.shutdownToolIds lines).foldl applyEvent st.live := by
  induction lines with
  | nil => intro st; rfl
  | cons l ls ih =>
    intro st
    rw [List.foldl_cons, ih (analyzeLine env st l)]
    have h6 := analyzeLine_live env st l
    rw [sessionEventsFrom, List.foldl_append,
      show (analyzeLine env st l).shutdownToolIds = (lineEvents env st.shutdownToolIds l).2 from
        congrArg Prod.snd h6,
      show (analyzeLine env st l).live
          = (lineEvents env st.shutdownToolIds l).1.foldl applyEvent st.live from
        congrArg Prod.fst h6]

-- =============================================================================
-- Proofs — liveness state machine (C4): the flag machine computes the rule
-- =============================================================================

theorem lastEndingIdxAux_snd (l : List SEvent) :
    ∀ p : Option Nat × Nat, (l.foldl lastEndingStep p).2 = p.2 + l.length := by
  induction l with
  | nil => intro p; simp
  | cons e rest ih =>
    intro p
    rw [List.foldl_cons, ih]
    simp [lastEndingStep]
    omega

theorem lastEndingIdx_concat_ending (l : List SEvent) :
    lastEndingIdx (l ++ [SEvent.ending]) = some l.length := by
  unfold lastEndingIdx lastEndingIdxAux
  rw [List.foldl_append]
  rw [show ([SEvent.ending].foldl lastEndingStep (List.foldl lastEndingStep (none, 0) l)).1
      = some (List.foldl lastEndingStep (none, 0) l).2 from rfl]
  rw [lastEndingIdxAux_snd l ((none : Option Nat), 0)]
  simp

theorem lastEndingIdx_concat_ongoing (l : List SEvent) :
    lastEndingIdx (l ++ [SEvent.ongoing]) = lastEndingIdx l := by
  unfold lastEndingIdx lastEndingIdxAux
  rw [List.foldl_append]
  simp [lastEndingStep]

theorem lastEndingIdx_lt_length (l : List SEvent) :
    ∀ i, lastEndingIdx l = some i → i < l.length := by
  induction l using List.reverseRecOn with
  | nil => intro i h; cases h
  | append_singleton l e ih =>
    intro i h
    cases e with
    | ending =>
      rw [lastEndingIdx_concat_ending] at h
      cases h
      simp
    | ongoing =>
      rw [lastEndingIdx_concat_ongoing] at h
      have := ih i h
      simp
      omega

theorem lastEndingIdx_eq_none_iff (l : List SEvent) :
    lastEndingIdx l = none ↔ SEvent.ending ∉ l := by
  induction l using List.reverseRecOn with
  | nil => simp [lastEndingIdx, lastEndingIdxAux]
  | append_singleton l e ih =>
    cases e with
    | ending =>
      rw [lastEndingIdx_concat_ending]
      simp
    | ongoing =>
      rw [lastEndingIdx_concat_ongoing]
      rw [ih]
      simp

theorem applyEvent_run_spec (evs : List SEvent) :
    (evs.foldl applyEvent initAnalyzerState.live).activityIndex = evs.length
    ∧ (evs.foldl applyEvent initAnalyzerState.live).lastEndingIndex
        = (match lastEndingIdx evs with
           | none => (-1 : Int)
           | some i => (i : Int))
    ∧ ((evs.foldl applyEvent initAnalyzerState.live).hasAnyOngoingActivity = true
        ↔ SEvent.ongoing ∈ evs)
    ∧ ((evs.foldl applyEvent initAnalyzerState.live).hasActivityAfterLastEnding = true
        ↔ ∃ i j, lastEndingIdx evs = some i ∧ i < j ∧ evs[j]? = some SEvent.ongoing) := by
  induction evs using List.reverseRecOn with
  | nil =>
    refine ⟨rfl, rfl, by simp [initAnalyzerState], ?_⟩
    simp only [initAnalyzerState]
    constructor
    · intro h; cases h
    · rintro ⟨i, j, hi, -, -⟩
      cases hi
  | append_singleton l e ih =>
    obtain ⟨ih1, ih2, ih3, ih4⟩ := ih
    rw [List.foldl_append] at *
    cases e with
    | ending =>
      simp only [List.foldl_cons, List.foldl_nil]
      refine ⟨?_, ?_, ?_, ?_⟩
      · show (recordEnding _).activityIndex = _
        simp [recordEnding, ih1]
      · show (recordEnding _).lastEndingIndex = _
        rw [lastEndingIdx_concat_ending]
        simp [recordEnding, ih1]
      · show (recordEnding _).hasAnyOngoingActivity = true ↔ _
        simp only [recordEnding]
        rw [ih3]
        simp
      · show (recordEnding _).hasActivityAfterLastEnding = true ↔ _
        simp only [recordEnding]
        rw [lastEndingIdx_concat_ending]
        constructor
        · intro h; cases h
        · rintro ⟨i, j, hi, hij, hj⟩
          cases hi
          have hlen : (l ++ [SEvent.ending]).length ≤ j := by
            simp
            omega
          rw [List.getElem?_eq_none hlen] at hj
          cases hj
    | ongoing =>
      simp only [List.foldl_cons, List.foldl_nil]
      refine ⟨?_, ?_, ?_, ?_⟩
      · show (recordOngoing _).activityIndex = _
        simp [recordOngoing, ih1]
      · show (recordOngoing _).lastEndingIndex = _
        rw [lastEndingIdx_concat_ongoing]
        simp [recordOngoing, ih2]
      · show (recordOngoing _).hasAnyOngoingActivity = true ↔ _
        simp [recordOngoing]
      · show (recordOngoing _).hasActivityAfterLastEnding = true ↔ _
        simp only [recordOngoing]
        rw [lastEndingIdx_concat_ongoing]
        cases hle : lastEndingIdx l with
        | none =>
          rw [hle] at ih2
          have hneg : ¬((l.foldl applyEvent initAnalyzerState.live).lastEndingIndex ≥ 0) := by
            rw [ih2]
            decide
          rw [if_neg hneg]
          rw [ih4, hle]
          constructor
          · rintro ⟨i, j, hi, -, -⟩; cases hi
          · rintro ⟨i, j, hi, -, -⟩; cases hi
        | some i0 =>
          rw [hle] at ih2
          have hpos : (l.foldl applyEvent initAnalyzerState.live).lastEndingIndex ≥ 0 := by
            rw [ih2]
            show (i0 : Int) ≥ 0
            omega
          rw [if_pos hpos]
          constructor
          · intro _
            refine ⟨i0, l.length, rfl, lastEndingIdx_lt_length l i0 hle, ?_⟩
            rw [List.getElem?_concat_length]
          · intro _
            rfl

-- =============================================================================
-- Proofs — liveness (C4): main theorem
-- =============================================================================

/-- C4: the analyzer's `isOngoing` flag is true iff either no ending event was
ever classified and at least one ongoing-activity event was, or an
ongoing-activity event was classified strictly after the most recent ending
event's index; in particular a session consisting of a single dotted
tool-start event (and no subsequent ending event) is classified ongoing. -/
theorem C4_isOngoing_rule :
    (∀ (env : JsEnv) (lines : List String),
      (analyzeSessionFileMetadata env lines).isOngoing = true ↔
        ((SEvent.ending ∉ sessionEvents env lines ∧ SEvent.ongoing ∈ sessionEvents env lines)
         ∨ (∃ i j, lastEndingIdx (sessionEvents env lines) = some i ∧ i < j
              ∧ (sessionEvents env lines)[j]? = some SEvent.ongoing)))
    ∧ (analyzeSessionFileMetadata toolStartEnv ["x"]).isOngoing = true := by
  constructor
  · intro env lines
    have hproj : (analyzeSessionFileMetadata env lines).isOngoing
        = (if (lines.foldl (analyzeLine env) initAnalyzerState).live.lastEndingIndex = -1
           then (lines.foldl (analyzeLine env) initAnalyzerState).live.hasAnyOngoingActivity
           else (lines.foldl (analyzeLine env) initAnalyzerState).live.hasActivityAfterLastEnding) :=
      rfl
    have hlive : (lines.foldl (analyzeLine env) initAnalyzerState).live
        = (sessionEvents env lines).foldl applyEvent initAnalyzerState.live :=
      analyzeFold_live env lines initAnalyzerState
    obtain ⟨-, h2, h3, h4⟩ := applyEvent_run_spec (sessionEvents env lines)
    rw [hproj, hlive]
    cases hle : lastEndingIdx (sessionEvents env lines) with
    | none =>
      rw [hle] at h2
      rw [if_pos h2]
      rw [h3]
      constructor
      · intro h
        exact Or.inl ⟨(lastEndingIdx_eq_none_iff _).mp hle, h⟩
      · rintro (⟨-, h⟩ | ⟨i, j, hi, -, -⟩)
        · exact h
        · cases hi
    | some i0 =>
      rw [hle] at h2
      rw [hle] at h4
      have hne : ((sessionEvents env lines).foldl applyEvent
          initAnalyzerState.live).lastEndingIndex ≠ -1 := by
        rw [h2]
        show (i0 : Int) ≠ -1
        omega
      rw [if_neg hne, h4]
      constructor
      · intro h
        exact Or.inr h
      · rintro (⟨hnot, -⟩ | h)
        · exact absurd hle (by
            intro hcon
            have := (lastEndingIdx_eq_none_iff (sessionEvents env lines)).mpr hnot
            rw [this] at hcon
            cases hcon)
        · exact h
  · rfl

-- =============================================================================
-- Proofs — context consumption (C3): the per-message tracker follows the stream
-- =============================================================================

theorem ctxMsg_step (p : ParsedMessage) (c : CtxState) :
    ctxCompactStep p (ctxTokenStep p c) = (ctxEventsOfMsg p).foldl ctxStep c := by
  have htok : ctxTokenStep p c =
      (if p.type = .assistant ∧ ¬p.isSidechain ∧ p.model ≠ some "<synthetic>"
          ∧ usageIn p > 0 then [CtxEvent.total (usageIn p)] else []).foldl ctxStep c := by
    simp only [ctxTokenStep]
    by_cases h1 : p.type = .assistant ∧ ¬p.isSidechain ∧ p.model ≠ some "<synthetic>"
    · rw [if_pos h1]
      by_cases h2 : usageIn p > 0
      · have hbig : p.type = .assistant ∧ ¬p.isSidechain ∧ p.model ≠ some "<synthetic>"
            ∧ usageIn p > 0 := ⟨h1.1, h1.2.1, h1.2.2, h2⟩
        rw [if_pos h2, if_pos hbig]
        rfl
      · rw [if_neg h2, if_neg (by tauto)]
        rfl
    · rw [if_neg h1, if_neg (by tauto)]
      rfl
  have hcomp : ∀ d, ctxCompactStep p d =
      (if p.isCompactSummary then [CtxEvent.compact] else []).foldl ctxStep d := by
    intro d
    simp only [ctxCompactStep]
    by_cases h3 : p.isCompactSummary
    · rw [if_pos h3, if_pos h3]
      rfl
    · rw [if_neg h3, if_neg h3]
      rfl
  simp only [ctxEventsOfMsg, List.foldl_append]
  rw [← htok, hcomp]

theorem analyzeLine_ctx (env : JsEnv) (st : AnalyzerState) (line : String) :
    (analyzeLine env st line).ctx = (ctxEventsOfLine env line).foldl ctxStep st.ctx := by
  simp only [analyzeLine, ctxEventsOfLine]
  split
  · rfl
  · split
    · rfl
    · next entry heq =>
      split
      · rfl
      · split
        · rfl
        · next p hp =>
          have h1 : (parsedStep env entry p st).ctx
              = ctxCompactStep p (ctxTokenStep p st.ctx) := rfl
          rw [h1, ctxMsg_step]

theorem analyzeFold_ctx (env : JsEnv) (lines : List String) :
    ∀ st : AnalyzerState,
      (lines.foldl (analyzeLine env) st).ctx
        = (sessionCtxEvents env lines).foldl ctxStep st.ctx := by
  induction lines with
  | nil => intro st; rfl
  | cons l ls ih =>
    intro st
    rw [List.foldl_cons, ih (analyzeLine env st l)]
    simp only [sessionCtxEvents, List.map_cons, List.flatten_cons, List.foldl_append]
    rw [analyzeLine_ctx]

-- =============================================================================
-- Proofs — context consumption (C3): closed form of the streaming tracker
-- =============================================================================

theorem setLastPost_concat (ps : List (Int × Int)) (q : Int × Int) (x : Int) :
    setLastPost (ps ++ [q]) x = ps ++ [(q.1, x)] := by
  induction ps with
  | nil => rfl
  | cons a ps ih =>
    cases ps with
    | nil => rfl
    | cons b ps' =>
      show a :: setLastPost ((b :: ps') ++ [q]) x = a :: ((b :: ps') ++ [(q.1, x)])
      rw [ih]

theorem setLastPost_singleton (a : Int × Int) (x : Int) :
    setLastPost [a] x = [(a.1, x)] := rfl

theorem setLastPost_cons_cons (a b : Int × Int) (l : List (Int × Int)) (x : Int) :
    setLastPost (a :: b :: l) x = a :: setLastPost (b :: l) x := rfl

theorem setLastPost_append (ps : List (Int × Int)) :
    ∀ (qs : List (Int × Int)) (x : Int), qs ≠ [] →
      setLastPost (ps ++ qs) x = ps ++ setLastPost qs x := by
  induction ps with
  | nil => intro qs x _; rfl
  | cons a ps ih =>
    intro qs x h
    cases hpq : ps ++ qs with
    | nil => exact absurd (List.append_eq_nil.mp hpq).2 h
    | cons c cs =>
      show setLastPost (a :: (ps ++ qs)) x = a :: (ps ++ setLastPost qs x)
      rw [hpq]
      show a :: setLastPost (c :: cs) x = a :: (ps ++ setLastPost qs x)
      rw [← hpq, ih qs x h]

theorem ctxStep_total (last n : Int) (phases : List (Int × Int)) (await : Bool) :
    ctxStep ⟨last, phases, await⟩ (.total n)
      = if await ∧ phases ≠ [] then ⟨n, setLastPost phases n, false⟩
        else ⟨n, phases, await⟩ := by
  by_cases h : await = true ∧ phases ≠ []
  · rw [if_pos h]
    simp only [ctxStep]
    rw [if_pos h]
  · rw [if_neg h]
    simp only [ctxStep]
    rw [if_neg h]

theorem ctxStep_compact (last : Int) (phases : List (Int × Int)) (await : Bool) :
    ctxStep ⟨last, phases, await⟩ .compact
      = ⟨last, phases ++ [(last, 0)], true⟩ := rfl

theorem ctxStep_run (evs : List CtxEvent) :
    ∀ (last : Int) (phases : List (Int × Int)) (await : Bool),
      (await = true → ∃ ps q, phases = ps ++ [(q, 0)]) →
      evs.foldl ctxStep ⟨last, phases, await⟩
        = ⟨lastTotalFrom last evs,
           (if await then setLastPost phases (firstTotalSeg evs) else phases)
             ++ specPhases last evs,
           finalAwait await evs⟩ := by
  induction evs with
  | nil =>
    intro last phases await hinv
    cases await with
    | false => simp [lastTotalFrom, firstTotalSeg, specPhases, finalAwait]
    | true =>
      obtain ⟨ps, q, hps⟩ := hinv rfl
      subst hps
      simp [lastTotalFrom, firstTotalSeg, specPhases, finalAwait, setLastPost_concat,
        setLastPost_append, setLastPost_singleton]
  | cons e rest ih =>
    intro last phases await hinv
    rw [List.foldl_cons]
    cases e with
    | total n =>
      rw [ctxStep_total]
      by_cases hcond : await = true ∧ phases ≠ []
      · rw [if_pos hcond]
        rw [ih n (setLastPost phases n) false (fun h => Bool.noConfusion h)]
        rw [hcond.1]
        simp [lastTotalFrom, firstTotalSeg, specPhases, finalAwait]
      · rw [if_neg hcond]
        have haf : await = false := by
          cases hb : await with
          | false => rfl
          | true =>
            obtain ⟨ps, q, hps⟩ := hinv hb
            exact absurd ⟨hb, by simp [hps]⟩ hcond
        subst haf
        rw [ih n phases false (fun h => Bool.noConfusion h)]
        simp [lastTotalFrom, firstTotalSeg, specPhases, finalAwait]
    | compact =>
      rw [ctxStep_compact]
      cases hb : await with
      | false =>
        rw [ih last (phases ++ [(last, 0)]) true (fun _ => ⟨phases, last, rfl⟩)]
        simp [lastTotalFrom, firstTotalSeg, specPhases, finalAwait, setLastPost_concat,
          setLastPost_append, setLastPost_singleton]
      | true =>
        obtain ⟨ps, q, hps⟩ := hinv hb
        subst hps
        rw [ih last ((ps ++ [(q, 0)]) ++ [(last, 0)]) true
          (fun _ => ⟨ps ++ [(q, 0)], last, rfl⟩)]
        simp [lastTotalFrom, firstTotalSeg, specPhases, finalAwait,
          setLastPost_append, setLastPost_cons_cons, setLastPost_singleton]

-- =============================================================================
-- Proofs — context consumption (C3): positivity of the observed totals
-- =============================================================================

theorem ctxEventsOfMsg_pos (p : ParsedMessage) :
    ∀ n, CtxEvent.total n ∈ ctxEventsOfMsg p → 0 < n := by
  intro n hn
  simp only [ctxEventsOfMsg, List.mem_append] at hn
  rcases hn with h | h
  · split at h
    · next hc =>
      rw [List.mem_singleton] at h
      injection h with h'
      subst h'
      exact hc.2.2.2
    · cases h
  · split at h
    · rw [List.mem_singleton] at h
      cases h
    · cases h

theorem ctxEventsOfLine_pos (env : JsEnv) (line : String) :
    ∀ n, CtxEvent.total n ∈ ctxEventsOfLine env line → 0 < n := by
  intro n hn
  simp only [ctxEventsOfLine] at hn
  repeat' split at hn
  all_goals first
    | cases hn
    | exact ctxEventsOfMsg_pos _ n hn

theorem sessionCtxEvents_pos (env : JsEnv) (lines : List String) :
    ∀ n, CtxEvent.total n ∈ sessionCtxEvents env lines → 0 < n := by
  intro n hn
  rw [sessionCtxEvents, List.mem_flatten] at hn
  obtain ⟨l, hl, hnl⟩ := hn
  rw [List.mem_map] at hl
  obtain ⟨line, -, rfl⟩ := hl
  exact ctxEventsOfLine_pos env line n hnl

theorem lastTotalFrom_pos_of_pos (evs : List CtxEvent) :
    ∀ last : Int, 0 < last → (∀ n, CtxEvent.total n ∈ evs → 0 < n) →
      0 < lastTotalFrom last evs := by
  induction evs with
  | nil => intro last h _; exact h
  | cons e rest ih =>
    intro last h hall
    cases e with
    | total n =>
      exact ih n (hall n (List.mem_cons_self _ _))
        (fun m hm => hall m (List.mem_cons_of_mem _ hm))
    | compact =>
      exact ih last h (fun m hm => hall m (List.mem_cons_of_mem _ hm))

theorem lastTotalFrom_zero_pos (evs : List CtxEvent) :
    (∀ n, CtxEvent.total n ∈ evs → 0 < n) →
    (0 < lastTotalFrom 0 evs ↔ ∃ n, CtxEvent.total n ∈ evs) := by
  induction evs with
  | nil =>
    intro _
    simp [lastTotalFrom]
  | cons e rest ih =>
    intro hall
    cases e with
    | total n =>
      constructor
      · intro _
        exact ⟨n, List.mem_cons_self _ _⟩
      · intro _
        show 0 < lastTotalFrom n rest
        exact lastTotalFrom_pos_of_pos rest n (hall n (List.mem_cons_self _ _))
          (fun m hm => hall m (List.mem_cons_of_mem _ hm))
    | compact =>
      have ih' := ih (fun m hm => hall m (List.mem_cons_of_mem _ hm))
      show 0 < lastTotalFrom 0 rest ↔ _
      rw [ih']
      constructor
      · rintro ⟨n, hn⟩
        exact ⟨n, List.mem_cons_of_mem _ hn⟩
      · rintro ⟨n, hn⟩
        rcases List.mem_cons.mp hn with h | h
        · cases h
        · exact ⟨n, h⟩

-- =============================================================================
-- Proofs — context consumption (C3): the final computation equals the formula
-- =============================================================================

theorem middleAcc_eq (rest : List (Int × Int)) :
    ∀ (prev : Int × Int) (num : Nat),
      (middleAcc prev rest num).1 = (claimMiddles prev rest).sum
      ∧ (middleAcc prev rest num).2.map (fun b => b.contribution)
          = claimMiddles prev rest := by
  induction rest with
  | nil => intro prev num; exact ⟨rfl, rfl⟩
  | cons q qs ih =>
    intro prev num
    obtain ⟨ih1, ih2⟩ := ih q (num + 1)
    constructor
    · simp only [claimMiddles, List.sum_cons]
      rw [show (middleAcc prev (q :: qs) num).1
          = (q.1 - prev.2) + (middleAcc q qs (num + 1)).1 from rfl, ih1]
    · simp only [claimMiddles]
      rw [show (middleAcc prev (q :: qs) num).2
          = (⟨num, q.1 - prev.2, q.1, some q.2⟩ : PhaseTokenBreakdown)
              :: (middleAcc q qs (num + 1)).2 from rfl,
        List.map_cons, ih2]

theorem ctxResult_eq (fin : Int) (phases : List (Int × Int)) (a : Bool) :
    (ctxResult ⟨fin, phases, a⟩).1
        = (if 0 < fin then some (claimTotal fin phases) else none)
    ∧ (ctxResult ⟨fin, phases, a⟩).2.map (fun l => l.map (fun b => b.contribution))
        = (if 0 < fin then some (claimContribs fin phases) else none) := by
  by_cases hf : 0 < fin
  · rw [if_pos hf, if_pos hf]
    cases phases with
    | nil =>
      have hcr : ctxResult ⟨fin, [], a⟩
          = (some fin, some [⟨1, fin, fin, none⟩]) := by
        simp only [ctxResult]
        rw [if_pos hf]
      rw [hcr]
      constructor
      · simp [claimTotal, claimContribs]
      · simp [claimContribs]
    | cons ph0 rest =>
      obtain ⟨hm1, hm2⟩ := middleAcc_eq rest ph0 2
      by_cases hl : (rest.getLastD ph0).2 > 0
      · have hcr : ctxResult ⟨fin, ph0 :: rest, a⟩
            = (some (ph0.1 + (middleAcc ph0 rest 2).1 + (fin - (rest.getLastD ph0).2)),
               some (((⟨1, ph0.1, ph0.1, some ph0.2⟩ : PhaseTokenBreakdown)
                   :: (middleAcc ph0 rest 2).2) ++
                 [⟨(ph0 :: rest).length + 1, fin - (rest.getLastD ph0).2, fin, none⟩])) := by
          simp only [ctxResult]
          rw [if_pos hf, if_pos hl]
        rw [hcr]
        constructor
        · simp only [claimTotal, claimContribs, Option.some.injEq]
          rw [if_pos hl]
          rw [List.sum_append, List.sum_cons, ← hm1]
          simp
        · simp only [claimContribs, Option.map_some, List.map_append, List.map_cons,
            List.map_nil, Option.some.injEq]
          rw [if_pos hl]
          simp [hm2]
      · have hcr : ctxResult ⟨fin, ph0 :: rest, a⟩
            = (some (ph0.1 + (middleAcc ph0 rest 2).1),
               some ((⟨1, ph0.1, ph0.1, some ph0.2⟩ : PhaseTokenBreakdown)
                   :: (middleAcc ph0 rest 2).2)) := by
          simp only [ctxResult]
          rw [if_pos hf, if_neg hl]
        rw [hcr]
        constructor
        · simp only [claimTotal, claimContribs, Option.some.injEq]
          rw [if_neg hl]
          rw [List.append_nil, List.sum_cons, ← hm1]
        · simp only [claimContribs, Option.map_some, List.map_cons, Option.some.injEq]
          rw [if_neg hl]
          simp [hm2]
  · rw [if_neg hf, if_neg hf]
    have hcr : ctxResult ⟨fin, phases, a⟩ = (none, none) := by
      simp only [ctxResult]
      rw [if_neg hf]
    rw [hcr]
    exact ⟨rfl, rfl⟩

-- =============================================================================
-- Proofs — context consumption (C3): main theorem
-- =============================================================================

/-- C3: the context-consumption result of `analyzeSessionFileMetadata` equals
the reference formula over the session's observation stream: it is absent
exactly when no main-thread assistant input-token total was ever observed, and
otherwise the total and the per-phase contributions are those of the
compaction-phase formula (phase 1 contributes `pre`, middle phases
`pre − previous post`, and a trailing `finalTotal − last post` phase is
included iff the last post-observation is positive). -/
theorem C3_context_consumption :
    ∀ (env : JsEnv) (lines : List String),
      ((analyzeSessionFileMetadata env lines).contextConsumption = none
        ↔ ¬∃ n, CtxEvent.total n ∈ sessionCtxEvents env lines)
      ∧ (analyzeSessionFileMetadata env lines).contextConsumption
          = (if 0 < lastTotalFrom 0 (sessionCtxEvents env lines)
             then some (claimTotal (lastTotalFrom 0 (sessionCtxEvents env lines))
               (specPhases 0 (sessionCtxEvents env lines)))
             else none)
      ∧ (analyzeSessionFileMetadata env lines).phaseBreakdown.map
            (fun l => l.map (fun b => b.contribution))
          = (if 0 < lastTotalFrom 0 (sessionCtxEvents env lines)
             then some (claimContribs (lastTotalFrom 0 (sessionCtxEvents env lines))
               (specPhases 0 (sessionCtxEvents env lines)))
             else none) := by
  intro env lines
  have hfold : (lines.foldl (analyzeLine env) initAnalyzerState).ctx
      = (sessionCtxEvents env lines).foldl ctxStep initAnalyzerState.ctx :=
    analyzeFold_ctx env lines initAnalyzerState
  have hinit : initAnalyzerState.ctx = (⟨0, [], false⟩ : CtxState) := rfl
  have hrun := ctxStep_run (sessionCtxEvents env lines) 0 [] false
    (fun h => Bool.noConfusion h)
  simp only [Bool.false_eq_true, if_false, List.nil_append] at hrun
  have hproj1 : (analyzeSessionFileMetadata env lines).contextConsumption
      = (ctxResult (lines.foldl (analyzeLine env) initAnalyzerState).ctx).1 := rfl
  have hproj2 : (analyzeSessionFileMetadata env lines).phaseBreakdown
      = (ctxResult (lines.foldl (analyzeLine env) initAnalyzerState).ctx).2 := rfl
  rw [hproj1, hproj2, hfold, hinit, hrun]
  obtain ⟨hc1, hc2⟩ := ctxResult_eq (lastTotalFrom 0 (sessionCtxEvents env lines))
    (specPhases 0 (sessionCtxEvents env lines))
    (finalAwait false (sessionCtxEvents env lines))
  rw [hc1, hc2]
  refine ⟨?_, rfl, rfl⟩
  rw [show (¬∃ n, CtxEvent.total n ∈ sessionCtxEvents env lines)
      = ¬(0 < lastTotalFrom 0 (sessionCtxEvents env lines)) from by
    rw [lastTotalFrom_zero_pos (sessionCtxEvents env lines)
      (sessionCtxEvents_pos env lines)]]
  by_cases hp : 0 < lastTotalFrom 0 (sessionCtxEvents env lines)
  · rw [if_pos hp]
    constructor
    · intro h
      cases h
    · intro h
      exact absurd hp h
  · rw [if_neg hp]
    constructor
    · intro _
      exact hp
    · intro _
      rfl

end DevTools
